import Mathlib

/-!
# Verification of the djbot mix engine against its specification

This file contains a shallow embedding, in Lean 4, of the core algorithms of
the djbot repository (Go): the mix planner (`planner.go`), the analyzer
helpers that live next to the timeline simulator (`simulate_test.go`), and the
PCM canvas renderer (`renderer.go`, the `RenderFinalMix` variant).

Modelling conventions:
* Go `float64` arithmetic is modelled by exact rational arithmetic (`ℚ`).
  `math.Round` (half away from zero) is `goRound`, the Go `int(x)` conversion
  (truncation toward zero) is `goInt`.
* Go `while`-style loops are embedded as fuel-bounded recursions; every fuel
  argument is chosen at the call site to dominate the exact number of
  iterations the Go loop performs, so the embedded function computes the same
  value as the loop.
* `math/rand` is modelled by an explicit oracle stream (`Rng`): an arbitrary
  sequence of floats in `[0,1)` and of naturals, consumed in program order.
* Transcendental functions (`math.Sin`, and the constant `math.Pi`) are
  modelled by explicit rational approximants (`sinQ`, `piQ`); no claim in this
  development depends on their values beyond being fixed rationals.
* Go maps are modelled by association lists; a missing key yields the zero
  value, as in Go.  Where Go iterates over a map (randomized order), the model
  fixes the textual order of the corresponding source literals.
-/

namespace DJBot

/-- Model of the Go conversion `int(x)` on `float64`: truncation toward zero. -/
def goInt (q : ℚ) : ℤ := if 0 ≤ q then ⌊q⌋ else ⌈q⌉

/-- Model of Go `math.Round(x)`: round half away from zero. -/
def goRound (q : ℚ) : ℤ := if 0 ≤ q then ⌊q + 1/2⌋ else ⌈q - 1/2⌉

/-- Go `math.Max` on rationals. -/
def goMax (a b : ℚ) : ℚ := if a < b then b else a

/-- Go `math.Min` on rationals. -/
def goMin (a b : ℚ) : ℚ := if a < b then a else b

/-- Go `math.Abs` on rationals. -/
def goAbs (a : ℚ) : ℚ := if a < 0 then -a else a

-- ======================================================================
-- Data model (src/backend: TrackAnalysis, Segment, Highlight,
-- TransitionSpec, TrackEntry, MixPlan)
-- ======================================================================

structure Segment where
  Time : ℚ
  Label : String
  Energy : ℚ
  VocalEnergy : ℚ
deriving DecidableEq, Repr

structure Highlight where
  StartBeatIdx : ℕ
  EndBeatIdx : ℕ
  StartTime : ℚ
  EndTime : ℚ
  Score : ℚ
deriving DecidableEq, Repr

structure TrackAnalysis where
  Filepath : String
  Duration : ℚ
  BPM : ℚ
  Key : String
  BeatTimes : List ℚ
  Phrases : List ℚ
  Segments : List Segment
  Energy : List ℚ
  Highlights : List Highlight
deriving DecidableEq, Repr

structure TransitionSpec where
  /-- source field name: `Type` (a Lean keyword, hence `Ty` here). -/
  Ty : String
  Name : String
  Duration : ℚ
  AOutTime : ℚ
  BInTime : ℚ
  SpeedA : ℚ
  SpeedB : ℚ
deriving DecidableEq, Repr

structure TrackEntry where
  Filepath : String
  Filename : String
  Duration : ℚ
  BPM : ℚ
  LoudnessDB : ℚ
  PlayStart : ℚ
  PlayEnd : ℚ
deriving DecidableEq, Repr

structure MixPlan where
  SortedTracks : List TrackAnalysis
  Candidates : List (List TransitionSpec)
  Selections : List TransitionSpec
deriving DecidableEq, Repr

-- ======================================================================
-- src/backend/renderer.go:1427-1447 — clampPlayBounds
-- ======================================================================

/-- `clampPlayBounds` (renderer.go:1427): enforces a 30 s minimum chunk and a
15 s fallback guard on the play window. -/
def clampPlayBounds (startSec0 endSec0 duration : ℚ) : ℚ × ℚ :=
  let endSec1 := if endSec0 ≤ 0 then duration else endSec0
  let startSec1 := if startSec0 < 0 then 0 else startSec0
  let p :=
    if endSec1 - startSec1 < 30 then
      let needed := 30 - (endSec1 - startSec1)
      if endSec1 + needed ≤ duration then (startSec1, endSec1 + needed)
      else (goMax 0 (duration - 30), duration)
    else (startSec1, endSec1)
  let startSec2 := if p.1 ≥ p.2 - 15 then goMax 0 (p.2 - 15) else p.1
  (startSec2, p.2)

-- ======================================================================
-- src/backend/simulate_test.go:300-309 — the BPM normalization tail of
-- estimateBPM: two `for` loops and a final 1-decimal rounding.
-- ======================================================================

/-- The loop `for bpm > 200 { bpm /= 2 }` of `estimateBPM`
(simulate_test.go:303), fuel-bounded. -/
def divLoop : ℕ → ℚ → ℚ
  | 0, b => b
  | f + 1, b => if 200 < b then divLoop f (b / 2) else b

/-- The loop `for bpm < 60 { bpm *= 2 }` of `estimateBPM`
(simulate_test.go:306), fuel-bounded. -/
def mulLoop : ℕ → ℚ → ℚ
  | 0, b => b
  | f + 1, b => if b < 60 then mulLoop f (2 * b) else b

/-- The normalization tail of `estimateBPM` (simulate_test.go:300-309):
divide down into range, multiply up into range, round to 1 decimal.
The fuels dominate the number of iterations of each Go loop for every
positive input (proved in the fuel lemmas below). -/
def normalizeBPM (b : ℚ) : ℚ :=
  let b1 := divLoop ((⌈b / 200⌉).toNat + 1) b
  let b2 := mulLoop (b.den + 6) b1
  (goRound (b2 * 10) : ℚ) / 10

-- ======================================================================
-- src/backend/planner.go:230-302 — noteIndex, keyDistance, camelot map
-- ======================================================================

/-- `noteOrder` (planner.go:230): the twelve pitch classes in sharp spelling
(written here as two halves to keep the literal short per line). -/
def noteOrder : List String :=
  ["C", "C#", "D", "D#", "E", "F"] ++ ["F#", "G", "G#", "A", "A#", "B"]

/-- `noteIndex` (planner.go:232): extract the root pitch class of a key
string and find it in `noteOrder`; unknown roots map to 0. -/
def noteIndex (key : String) : ℕ :=
  if key.length < 1 then 0
  else
    let root :=
      if 2 < key.length ∧ key.data.getD 1 ' ' = '#' then key.take 2
      else if 1 < key.length ∧ key.data.getD 1 ' ' = '#' then key.take 2
      else key.take 1
    ((noteOrder.findIdx? (fun n => n == root)).getD 0)

/-- `keyDistance` (planner.go:254): semitone circle distance of the roots. -/
def keyDistance (k1 k2 : String) : ℤ :=
  let d0 : ℤ := (noteIndex k1 : ℤ) - (noteIndex k2 : ℤ)
  let d1 := if d0 < 0 then -d0 else d0
  if 6 < d1 then 12 - d1 else d1

/-- `camelotMap` (planner.go:265): key string → (wheel number, ring). -/
def camelotMap : List (String × ℤ × String) :=
  [("B", (1, "B")), ("F#", (2, "B")), ("Db", (3, "B")), ("Ab", (4, "B")),
   ("Eb", (5, "B")), ("Bb", (6, "B")), ("F", (7, "B")), ("C", (8, "B")),
   ("G", (9, "B")), ("D", (10, "B")), ("A", (11, "B")), ("E", (12, "B")),
   ("G#m", (1, "A")), ("D#m", (2, "A")), ("Bbm", (3, "A")), ("Fm", (4, "A")),
   ("Cm", (5, "A")), ("Gm", (6, "A")), ("Dm", (7, "A")), ("Am", (8, "A")),
   ("Em", (9, "A")), ("Bm", (10, "A")), ("F#m", (11, "A")), ("C#m", (12, "A"))]

/-- Go map lookup `camelotMap[k]` together with its `ok` flag. -/
def camelotLookup (k : String) : Option (ℤ × String) :=
  (camelotMap.find? (fun e => e.1 == k)).map (fun e => e.2)

/-- `camelotDistance` (planner.go:275). -/
def camelotDistance (k1 k2 : String) : ℤ :=
  match camelotLookup k1, camelotLookup k2 with
  | some c1, some c2 =>
    let d0 := c1.1 - c2.1
    let d1 := if d0 < 0 then -d0 else d0
    let distNum := if 6 < d1 then 12 - d1 else d1
    if c1.2 = c2.2 then
      if distNum ≤ 1 then 0 else (distNum - 1) * 10
    else
      if distNum = 0 then 10 else distNum * 10
  | _, _ => keyDistance k1 k2 * 10

-- ======================================================================
-- src/backend/renderer.go:1749-1782 (main loop) and 1697-1737 (pre-pass) —
-- the crossfade clamp chain of RenderFinalMix
-- ======================================================================

/-- The crossfade clamp chain of `RenderFinalMix`.  The pre-pass
(renderer.go:1697-1737) and the main loop (renderer.go:1749-1782) run the same
chain; the pre-pass feeds `prevTheoryMs` and the main loop
`prevActualChunkMs` as `prevMs`. -/
def clampXfade (transDuration bpmPrev bpmCur : ℚ) (prevMs : ℤ) (chunkTheorySec : ℚ) : ℤ :=
  let xfadeMs0 := goRound (transDuration * 1000)
  let avgBPM0 := (bpmPrev + bpmCur) / 2
  let avgBPM := if avgBPM0 ≤ 0 then 120 else avgBPM0
  let barDur := 4 * 60 / avgBPM
  let minXfadeMs0 := goRound (2 * barDur * 1000)
  let minXfadeMs := if minXfadeMs0 < 8000 then 8000 else minXfadeMs0
  let x1 := if xfadeMs0 < minXfadeMs then minXfadeMs else xfadeMs0
  let maxByPrev := prevMs - 1000
  let maxByB := goInt (chunkTheorySec * 1000) - 5000
  let maxBy40pct := goInt (goMin (prevMs : ℚ) (chunkTheorySec * 1000) * (2/5))
  let x2 := if maxByPrev < x1 ∧ 0 < maxByPrev then maxByPrev else x1
  let x3 := if maxByB < x2 ∧ 0 < maxByB then maxByB else x2
  let x4 := if maxBy40pct < x3 ∧ 0 < maxBy40pct then maxBy40pct else x3
  if x4 < 0 then 0 else x4

-- ======================================================================
-- src/backend/simulate_test.go:525-573 — classifySegments;
-- src/backend/planner.go:459-492 — pickSegment pool formation
-- ======================================================================

/-- `sortFloat64s` (simulate_test.go:611): ascending sort, modelled by
insertion sort (the Go sort is unstable but sorts totally ordered floats, so
any correct ascending sort computes the same list here). -/
def sortFloat64s (l : List ℚ) : List ℚ := List.insertionSort (fun a b => a ≤ b) l

/-- `classifySegments` (simulate_test.go:525): per-phrase mean beat energy,
30th/70th percentile thresholds, position+energy classification.  Every
produced segment stores the constant `VocalEnergy = 0.5` (source line 570).
The Go literals 0.3, 0.7, 0.15, 0.85 are modelled by the exact rationals. -/
def classifySegments (phrases : List ℚ) (beatEnergy : List ℚ) (duration : ℚ)
    (gridSize : ℕ) : List Segment :=
  if phrases.length = 0 then []
  else
    let phraseEnergies := (List.range phrases.length).map (fun i =>
      let bStart := i * gridSize
      let bEnd0 := (i + 1) * gridSize
      let bEnd := if bEnd0 > beatEnergy.length then beatEnergy.length else bEnd0
      if bStart ≥ beatEnergy.length then 0
      else
        ((beatEnergy.drop bStart).take (bEnd - bStart)).foldl (fun a b => a + b) 0
          / ((bEnd : ℚ) - (bStart : ℚ)))
    let sorted := sortFloat64s phraseEnergies
    let lowIdx := (goInt ((phrases.length : ℚ) * (3/10))).toNat
    let highIdx := (goInt ((phrases.length : ℚ) * (7/10))).toNat
    let lowThresh := sorted.getD lowIdx 0
    let highThresh := sorted.getD highIdx 0
    (List.range phrases.length).map (fun i =>
      let pTime := phrases.getD i 0
      let e := phraseEnergies.getD i 0
      let relPos := pTime / duration
      let label :=
        if relPos < 15/100 ∧ e < highThresh then "Intro"
        else if relPos > 85/100 ∧ e < highThresh then "Outro"
        else if e ≥ highThresh then "Chorus"
        else if e ≤ lowThresh then "Bridge"
        else "Verse"
      { Time := pTime, Label := label, Energy := e, VocalEnergy := 1/2 })

/-- The first pool formation inside `pickSegment` (planner.go:460-472): keep
segments whose label is in `labels`, rejecting segments with
`VocalEnergy > 0.6`. -/
def pickSegmentPool (segs : List Segment) (labels : List String) : List Segment :=
  segs.filter (fun s => !(decide (s.VocalEnergy > 3/5)) && labels.contains s.Label)

/-- The fallback pool of `pickSegment` (planner.go:474-483): the same label
filter without the vocal rejection. -/
def pickSegmentPoolFallback (segs : List Segment) (labels : List String) : List Segment :=
  segs.filter (fun s => labels.contains s.Label)

-- ======================================================================
-- Oracle model of math/rand
-- ======================================================================

/-- Oracle model of the process-wide `math/rand` stream: `fs` models the
sequence of `rand.Float64()` results (values in [0,1)), `is` the sequence of
`rand.Intn` draws; `fi`/`ii` are the cursors. -/
structure Rng where
  fs : ℕ → ℚ
  is : ℕ → ℕ
  fi : ℕ
  ii : ℕ

/-- `rand.Float64()`. -/
def Rng.float (r : Rng) : ℚ × Rng := (r.fs r.fi, { r with fi := r.fi + 1 })

/-- `rand.Intn n`: the oracle value reduced into `[0, n)`. -/
def Rng.intn (r : Rng) (n : ℕ) : ℕ × Rng :=
  (if n = 0 then 0 else r.is r.ii % n, { r with ii := r.ii + 1 })

-- ======================================================================
-- src/backend/planner.go — mix planner
-- ======================================================================

/-- `avgEnergy` (planner.go:219). -/
def avgEnergy (t : TrackAnalysis) : ℚ :=
  if t.Energy.length = 0 then 1/2
  else t.Energy.foldl (fun a b => a + b) 0 / (t.Energy.length : ℚ)

/-- Rational approximant modelling the Go constant `math.Pi`. -/
def piQ : ℚ := 314159265358979323846 / 10 ^ 20

/-- Rational approximant modelling `math.Sin`: the degree-11 Taylor
polynomial, accurate to about 2e-3 on [0, 0.9π], the only range on which the
planner evaluates it.  No theorem below depends on its values beyond being a
fixed rational function. -/
def sinQ (x : ℚ) : ℚ :=
  x - x ^ 3 / 6 + x ^ 5 / 120 - x ^ 7 / 5040 + x ^ 9 / 362880 - x ^ 11 / 39916800

/-- `idealEnergy` (planner.go:152). -/
def idealEnergy (position : ℚ) : ℚ :=
  sinQ (position * piQ * (9/10)) * (6/10) + 4/10

/-- The `preEnergy` map of `sortPlaylist` (planner.go:164-167); a Go map with
a missing-key zero value. -/
def preEnergyMap (tracks : List TrackAnalysis) : String → ℚ :=
  tracks.foldl (fun f t => fun k => if k = t.Filepath then avgEnergy t else f k)
    (fun _ => 0)

/-- The `bestIdx/bestScore` argmax loop of `sortPlaylist` (planner.go:176-212).
Go starts from `bestScore = -Inf` and `bestIdx = 0`, so on a nonempty list the
first iteration always updates; later entries win only on strict increase. -/
def argmaxIdx (scores : List ℚ) : ℕ :=
  match scores with
  | [] => 0
  | s :: rest =>
    (rest.foldl (fun (acc : ℕ × ℚ × ℕ) sc =>
      if acc.2.1 < sc then (acc.1 + 1, sc, acc.1 + 1)
      else (acc.1 + 1, acc.2.1, acc.2.2)) (0, s, 0)).2.2

/-- The candidate score of `sortPlaylist` (planner.go:182-206) for a remaining
track `t` given the current tail track, the energy-arc target and the sorted
prefix (for the BPM-gradient bonus). -/
def sortScore (preE : String → ℚ) (current : TrackAnalysis) (targetEnergy : ℚ)
    (sorted : List TrackAnalysis) (t : TrackAnalysis) : ℚ :=
  let keyDist := camelotDistance current.Key t.Key
  let s1 := goMax 0 (60 - (keyDist : ℚ))
  let bpmDiff := goAbs (t.BPM - current.BPM)
  let s2 := s1 + goMax 0 (20 - bpmDiff)
  let tE := preE t.Filepath
  let energyPenalty := goAbs (tE - targetEnergy)
  let s3 := s2 + goMax 0 (20 - energyPenalty * 20)
  s3 + (if 2 ≤ sorted.length then
      let prev2BPM := (sorted.getD (sorted.length - 2)
        { Filepath := "", Duration := 0, BPM := 0, Key := "", BeatTimes := [],
          Phrases := [], Segments := [], Energy := [], Highlights := [] }).BPM
      let trend := current.BPM - prev2BPM
      if trend > 0 ∧ t.BPM > current.BPM then 5
      else if trend < 0 ∧ t.BPM < current.BPM then 5 else 0
    else 0)

/-- The greedy nearest-neighbour loop of `sortPlaylist` (planner.go:173-215),
fuel-bounded by the length of `remaining`. -/
def sortLoop (tracksLen : ℕ) (preE : String → ℚ) :
    ℕ → List TrackAnalysis → List TrackAnalysis → List TrackAnalysis
  | 0, sorted, _ => sorted
  | fuel + 1, sorted, remaining =>
    match remaining with
    | [] => sorted
    | r0 :: rrest =>
      let current := sorted.getLastD r0
      let position := (sorted.length : ℚ) / (tracksLen : ℚ)
      let targetEnergy := idealEnergy position
      let scores := (r0 :: rrest).map (sortScore preE current targetEnergy sorted)
      let bestIdx := argmaxIdx scores
      let chosen := (r0 :: rrest).getD bestIdx r0
      sortLoop tracksLen preE fuel (sorted ++ [chosen]) ((r0 :: rrest).eraseIdx bestIdx)

/-- `sortPlaylist` (planner.go:157-217). -/
def sortPlaylist (tracks : List TrackAnalysis) : List TrackAnalysis :=
  match tracks with
  | [] => []
  | t0 :: rest => sortLoop tracks.length (preEnergyMap tracks) rest.length [t0] rest

/-- Go map read `m[k]` on a type-weight map (zero value when absent). -/
def lookupW (m : List (String × ℚ)) (k : String) : ℚ :=
  ((m.find? (fun e => e.1 == k)).map (fun e => e.2)).getD 0

/-- Go comma-ok map read: whether `k` is present. -/
def hasKey (m : List (String × ℚ)) (k : String) : Bool :=
  (m.find? (fun e => e.1 == k)).isSome

/-- `selectTransitionType` (planner.go:304-347).  The Go map `choices` is
iterated in randomized order by the runtime; the model fixes the insertion
order of the source (crossfade, then the branch-dependent additions), and
ties in the randomly perturbed scores resolve to the earlier entry. -/
def selectTransitionType (ta tb : TrackAnalysis) (typeW : List (String × ℚ))
    (r : Rng) : String × Rng :=
  let energyDiff := avgEnergy tb - avgEnergy ta
  let keyDist := camelotDistance ta.Key tb.Key
  let bpmDiff := goAbs (ta.BPM - tb.BPM)
  let choices : List (String × ℚ) :=
    [("crossfade", if hasKey typeW "crossfade" then lookupW typeW "crossfade" else 1/2)]
    ++ (if keyDist ≤ 10 ∧ bpmDiff < 5 then
          (if hasKey typeW "mashup" then [("mashup", lookupW typeW "mashup")] else [])
          ++ (if hasKey typeW "bass_swap" then [("bass_swap", lookupW typeW "bass_swap")] else [])
        else if energyDiff > 2/10 then
          (if hasKey typeW "bass_swap" then [("bass_swap", lookupW typeW "bass_swap")] else [])
        else if energyDiff < -(2/10) then
          (if hasKey typeW "filter_fade" then [("filter_fade", lookupW typeW "filter_fade")] else [])
        else if bpmDiff > 10 then
          (if hasKey typeW "cut" then [("cut", lookupW typeW "cut")] else [])
        else [])
  let res := choices.foldl (fun (acc : String × Option ℚ × Rng) c =>
      let fr := Rng.float acc.2.2
      let score := c.2 * (1/2 + fr.1)
      match acc.2.1 with
      | none => (c.1, some score, fr.2)
      | some bs => if bs < score then (c.1, some score, fr.2) else (acc.1, some bs, fr.2))
    ("crossfade", none, r)
  (res.1, res.2.2)

/-- `weightedIntKeys` (planner.go:562-577). -/
def weightedIntKeys (m : List (ℕ × ℚ)) : List ℕ :=
  let keys := m.foldl (fun acc kw =>
    let n0 := goRound (kw.2 * 10)
    let n := if n0 < 1 then 1 else n0
    acc ++ List.replicate n.toNat kw.1) []
  if keys.length = 0 then [8] else keys

/-- `pickSegment` (planner.go:459-492): filtered pool, fallback pool, random
element. -/
def pickSegment (segs : List Segment) (labels : List String) (r : Rng) :
    Segment × Rng :=
  let pool0 := pickSegmentPool segs labels
  let pool := if pool0.length = 0 then pickSegmentPoolFallback segs labels else pool0
  if pool.length = 0 ∧ 0 < segs.length then
    let ir := r.intn segs.length
    (segs.getD ir.1 { Time := 0, Label := "", Energy := 0, VocalEnergy := 0 }, ir.2)
  else if pool.length = 0 then
    ({ Time := 0, Label := "Verse", Energy := 1/2, VocalEnergy := 0 }, r)
  else
    let ir := r.intn pool.length
    (pool.getD ir.1 { Time := 0, Label := "", Energy := 0, VocalEnergy := 0 }, ir.2)

/-- The closest-index scan of `snapGrid` (planner.go:515-521): first index of
minimal distance (strict improvement). -/
def nearestIdx (xs : List ℚ) (t : ℚ) : ℕ :=
  match xs with
  | [] => 0
  | x :: rest =>
    (rest.foldl (fun (acc : ℕ × ℚ × ℕ) b =>
      let d := goAbs (b - t)
      if d < acc.2.1 then (acc.1 + 1, d, acc.1 + 1)
      else (acc.1 + 1, acc.2.1, acc.2.2)) (0, goAbs (x - t), 0)).2.2

/-- `snapGrid` (planner.go:511-533). -/
def snapGrid (timeSec : ℚ) (beats : List ℚ) (grid : ℕ) : ℚ :=
  if beats.length = 0 then timeSec
  else
    let best := nearestIdx beats timeSec
    let snapped0 : ℤ := goRound ((best : ℚ) / (grid : ℚ)) * (grid : ℤ)
    let snapped1 := if (beats.length : ℤ) ≤ snapped0 then
        ((beats.length : ℤ) - 1).tdiv (grid : ℤ) * (grid : ℤ)
      else snapped0
    let snapped2 := if snapped1 < 0 then 0 else snapped1
    let snapped3 := if (beats.length : ℤ) ≤ snapped2 then (beats.length : ℤ) - 1 else snapped2
    beats.getD snapped3.toNat 0

/-- The closest-value scan of `snapToPhrase` (planner.go:496-502): best value
and best distance. -/
def nearestVal (xs : List ℚ) (t : ℚ) : ℚ × ℚ :=
  match xs with
  | [] => (0, 0)
  | x :: rest =>
    rest.foldl (fun acc p =>
      let d := goAbs (p - t)
      if d < acc.2 then (p, d) else acc) (x, goAbs (x - t))

/-- `snapToPhrase` (planner.go:494-509). -/
def snapToPhrase (timeSec : ℚ) (phrases : List ℚ) (beats : List ℚ) (grid : ℕ) : ℚ :=
  if 0 < phrases.length then
    let bv := nearestVal phrases timeSec
    if bv.2 < 15 then bv.1 else snapGrid timeSec beats grid
  else snapGrid timeSec beats grid

/-- `clampF` (planner.go:535). -/
def clampF (v lo hi : ℚ) : ℚ := if v < lo then lo else if hi < v then hi else v

/-- The `bestH` scan of `generateCandidates` (planner.go:385-390 and 397-402):
first highlight of maximal score (strict improvement). -/
def bestHighlight (hs : List Highlight) : Highlight :=
  match hs with
  | [] => { StartBeatIdx := 0, EndBeatIdx := 0, StartTime := 0, EndTime := 0, Score := 0 }
  | h0 :: rest => rest.foldl (fun b h => if b.Score < h.Score then h else b) h0

/-- The exit-pool labels of `generateCandidates` (planner.go:393). -/
def exitLabels : List String := ["Chorus", "Verse", "Bridge", "Outro"]

/-- The entry-pool labels of `generateCandidates` (planner.go:405). -/
def entryLabels : List String := ["Intro", "Verse", "Chorus", "Bridge"]

/-- The Outro→Intro rejection loop of `generateCandidates` (planner.go:409-412).
The Go loop terminates with probability 1 (each pass exits with probability
0.05 or on a label change); the fuel bounds the number of re-picks the model
follows.  The float is drawn only when both labels match, as in the
short-circuit Go condition. -/
def rejectLoop (segsA segsB : List Segment) :
    ℕ → Segment → Segment → Rng → Segment × Segment × Rng
  | 0, ex, en, r => (ex, en, r)
  | fuel + 1, ex, en, r =>
    if ex.Label = "Outro" ∧ en.Label = "Intro" then
      let fr := r.float
      if fr.1 > 5/100 then
        let p1 := pickSegment segsA exitLabels fr.2
        let p2 := pickSegment segsB entryLabels p1.2
        rejectLoop segsA segsB fuel p1.1 p2.1 p2.2
      else (ex, en, fr.2)
    else (ex, en, r)

/-- One iteration of the candidate loop of `generateCandidates`
(planner.go:375-429). -/
def genCandidate (ta tb : TrackAnalysis) (typeW : List (String × ℚ))
    (bars : List ℕ) (segsA segsB : List Segment) (targetBPM durA durB : ℚ)
    (r : Rng) : TransitionSpec × Rng :=
  let tr := selectTransitionType ta tb typeW r
  let br := tr.2.intn bars.length
  let pickedBars := bars.getD br.1 0
  let er : Segment × Rng :=
    if 0 < ta.Highlights.length then
      let fr := br.2.float
      if fr.1 > 3/10 then
        ({ Time := (bestHighlight ta.Highlights).EndTime, Label := "Highlight",
           Energy := 0, VocalEnergy := 0 }, fr.2)
      else pickSegment segsA exitLabels fr.2
    else pickSegment segsA exitLabels br.2
  let nr : Segment × Rng :=
    if 0 < tb.Highlights.length then
      let fr := er.2.float
      if fr.1 > 3/10 then
        ({ Time := (bestHighlight tb.Highlights).StartTime, Label := "Highlight",
           Energy := 0, VocalEnergy := 0 }, fr.2)
      else pickSegment segsB entryLabels fr.2
    else pickSegment segsB entryLabels er.2
  let rj := rejectLoop segsA segsB 1000000 er.1 nr.1 nr.2
  let exitSeg := rj.1
  let entrySeg := rj.2.1
  let aOut := snapToPhrase (exitSeg.Time + 20) ta.Phrases ta.BeatTimes 16
  let bIn := snapToPhrase entrySeg.Time tb.Phrases tb.BeatTimes 16
  let beatDur := 60 / targetBPM
  let dur := (pickedBars : ℚ) * 4 * beatDur
  ({ Ty := tr.1,
     Name := tr.1 ++ " | " ++ exitSeg.Label ++ "->" ++ entrySeg.Label,
     Duration := dur,
     AOutTime := clampF aOut 0 durA,
     BInTime := clampF bIn 0 durB,
     SpeedA := 1, SpeedB := 1 }, rj.2.2)

/-- The candidate loop of `generateCandidates`, `count` iterations. -/
def genCandLoop (ta tb : TrackAnalysis) (typeW : List (String × ℚ))
    (bars : List ℕ) (segsA segsB : List Segment) (targetBPM durA durB : ℚ) :
    ℕ → List TransitionSpec → Rng → List TransitionSpec × Rng
  | 0, acc, r => (acc, r)
  | n + 1, acc, r =>
    let cr := genCandidate ta tb typeW bars segsA segsB targetBPM durA durB r
    genCandLoop ta tb typeW bars segsA segsB targetBPM durA durB n
      (acc ++ [cr.1]) cr.2

/-- `generateCandidates` (planner.go:349-431). -/
def generateCandidates (ta tb : TrackAnalysis) (typeW : List (String × ℚ))
    (barW : List (ℕ × ℚ)) (count : ℕ) (r : Rng) : List TransitionSpec × Rng :=
  let bars := weightedIntKeys barW
  let durA := ta.Duration
  let durB := tb.Duration
  let targetBPM := (ta.BPM + tb.BPM) / 2
  let segsA := if ta.Segments.length = 0 then
      [{ Time := durA - 30, Label := "Outro", Energy := 1/2, VocalEnergy := 0 }]
    else ta.Segments
  let segsB := if tb.Segments.length = 0 then
      [{ Time := 0, Label := "Intro", Energy := 1/2, VocalEnergy := 0 }]
    else tb.Segments
  genCandLoop ta tb typeW bars segsA segsB targetBPM durA durB count [] r

/-- The effective weight used by `selectBest` (planner.go:443-446):
`w := typeW[c.Type]; if w == 0 { w = 1.0 }`.  A zero or absent entry yields
weight 1.0. -/
def selectWeight (typeW : List (String × ℚ)) (ty : String) : ℚ :=
  let w := lookupW typeW ty
  if w = 0 then 1 else w

/-- The scoring loop of `selectBest` (planner.go:442-453): one random
perturbation per candidate, −500 chronology penalty. -/
def scoreCands (cands : List TransitionSpec) (typeW : List (String × ℚ))
    (minExit : ℚ) (r : Rng) : List (ℚ × TransitionSpec) × Rng :=
  match cands with
  | [] => ([], r)
  | c :: rest =>
    let fr := r.float
    let w := selectWeight typeW c.Ty
    let penalty : ℚ := if c.AOutTime < minExit + 4 then -500 else 0
    let s := w + penalty + fr.1 * (1/100)
    let srest := scoreCands rest typeW minExit fr.2
    ((s, c) :: srest.1, srest.2)

/-- Descending score order on scored candidates: the model of
`sort.Slice(list, func(i, j int) bool { return list[i].s > list[j].s })`. -/
def scoreGe (a b : ℚ × TransitionSpec) : Prop := b.1 ≤ a.1

instance : DecidableRel scoreGe := fun a b => inferInstanceAs (Decidable (b.1 ≤ a.1))

instance : IsTotal (ℚ × TransitionSpec) scoreGe := ⟨fun a b => le_total b.1 a.1⟩

instance : IsTrans (ℚ × TransitionSpec) scoreGe :=
  ⟨fun _ _ _ hab hbc => le_trans hbc hab⟩

/-- `selectBest` (planner.go:433-457): score, sort descending, take the head.
The Go sort is unstable; among equal scores the model resolves to the earlier
candidate. -/
def selectBest (cands : List TransitionSpec) (typeW : List (String × ℚ))
    (minExit : ℚ) (r : Rng) : Option TransitionSpec × Rng :=
  match cands with
  | [] => (none, r)
  | _ :: _ =>
    let sc := scoreCands cands typeW minExit r
    let sortedL := List.insertionSort scoreGe sc.1
    (some (sortedL.headD
      (0, { Ty := "", Name := "", Duration := 0, AOutTime := 0, BInTime := 0,
            SpeedA := 0, SpeedB := 0 })).2, sc.2)

/-- The per-pair loop of one scenario of `GenerateMixPlan`
(planner.go:125-134): walk adjacent pairs of the sorted list, generate 8
candidates, select, accumulate score / selections / candidate pools and the
`minExitTime` state. -/
def scenarioPairs (typeW : List (String × ℚ)) (barW : List (ℕ × ℚ)) :
    TrackAnalysis → List TrackAnalysis → ℚ → ℚ → List (List TransitionSpec) →
    List TransitionSpec → Rng →
    ℚ × List (List TransitionSpec) × List TransitionSpec × Rng
  | _, [], score, _, cands, sels, r => (score, cands, sels, r)
  | a, b :: rest, score, minExit, cands, sels, r =>
    let gc := generateCandidates a b typeW barW 8 r
    let sb := selectBest gc.1 typeW minExit gc.2
    match sb.1 with
    | some best =>
      scenarioPairs typeW barW b rest (score + lookupW typeW best.Ty) best.BInTime
        (cands ++ [gc.1]) (sels ++ [best]) sb.2
    | none =>
      scenarioPairs typeW barW b rest score minExit (cands ++ [gc.1]) sels sb.2

/-- The scenario loop of `GenerateMixPlan` (planner.go:119-141): run the
per-pair loop `numScenarios` times; keep the scenario with the greatest summed
selected type weight (`bestScore` starts at −∞, modelled by `none`; ties keep
the earlier scenario). -/
def scenarioLoop (typeW : List (String × ℚ)) (barW : List (ℕ × ℚ))
    (sorted : List TrackAnalysis) :
    ℕ → Option (ℚ × List (List TransitionSpec) × List TransitionSpec) → Rng →
    Option (ℚ × List (List TransitionSpec) × List TransitionSpec) × Rng
  | 0, acc, r => (acc, r)
  | n + 1, acc, r =>
    match sorted with
    | [] => scenarioLoop typeW barW sorted n acc r
    | t0 :: rest =>
      let res := scenarioPairs typeW barW t0 rest 0 0 [] [] r
      let acc2 := match acc with
        | none => some (res.1, res.2.1, res.2.2.1)
        | some best =>
          if best.1 < res.1 then some (res.1, res.2.1, res.2.2.1) else some best
      scenarioLoop typeW barW sorted n acc2 res.2.2.2

/-- The default type weights of `GenerateMixPlan` (planner.go:98-106). -/
def defaultTypeWeights : List (String × ℚ) :=
  [("crossfade", 1/2), ("bass_swap", 16/10), ("cut", 12/10),
   ("filter_fade", 1), ("mashup", 1)]

/-- The default bar weights of `GenerateMixPlan` (planner.go:107-109). -/
def defaultBarWeights : List (ℕ × ℚ) := [(4, 1), (8, 13/10)]

/-- `GenerateMixPlan` (planner.go:89-148). -/
def GenerateMixPlan (tracks : List TrackAnalysis)
    (typeWeights : Option (List (String × ℚ))) (barWeights : Option (List (ℕ × ℚ)))
    (numScenarios : ℕ) (r : Rng) : MixPlan :=
  if tracks.length < 2 then { SortedTracks := [], Candidates := [], Selections := [] }
  else
    let sorted := sortPlaylist tracks
    let typeW := typeWeights.getD defaultTypeWeights
    let barW := barWeights.getD defaultBarWeights
    let numS := if numScenarios = 0 then 5 else numScenarios
    let res := scenarioLoop typeW barW sorted numS none r
    match res.1 with
    | none => { SortedTracks := sorted, Candidates := [], Selections := [] }
    | some best =>
      { SortedTracks := sorted, Candidates := best.2.1, Selections := best.2.2 }

-- ======================================================================
-- C10 — zero type weight is scored as 1.0
-- ======================================================================

/-- The all-zeros random oracle: every float draw is 0, every int draw is 0. -/
def rng0 : Rng := { fs := fun _ => 0, is := fun _ => 0, fi := 0, ii := 0 }

/-- A candidate of type "typeA" (absent from, or zero in, the weight maps
below). -/
def candA10 : TransitionSpec :=
  { Ty := "typeA", Name := "a", Duration := 10, AOutTime := 100, BInTime := 50,
    SpeedA := 1, SpeedB := 1 }

/-- A candidate of type "typeB" (configured weight 0.9). -/
def candB10 : TransitionSpec :=
  { Ty := "typeB", Name := "b", Duration := 10, AOutTime := 100, BInTime := 50,
    SpeedA := 1, SpeedB := 1 }

/-- Counterexample track 1: C-major 120 BPM, one Chorus segment at 100 s. -/
def trackC3a : TrackAnalysis :=
  { Filepath := "t1", Duration := 200, BPM := 120, Key := "C Major",
    BeatTimes := [], Phrases := [],
    Segments := [{ Time := 100, Label := "Chorus", Energy := 1/2, VocalEnergy := 0 }],
    Energy := [], Highlights := [] }

/-- Counterexample track 2: its only entry-pool segment (Intro) sits at 150 s
while its only exit-pool segment (Outro) sits at 10 s, so the exit of the
second transition precedes the entry of the first. -/
def trackC3b : TrackAnalysis :=
  { Filepath := "t2", Duration := 200, BPM := 120, Key := "C Major",
    BeatTimes := [], Phrases := [],
    Segments := [{ Time := 150, Label := "Intro", Energy := 1/2, VocalEnergy := 0 },
                 { Time := 10, Label := "Outro", Energy := 1/2, VocalEnergy := 0 }],
    Energy := [], Highlights := [] }

/-- Counterexample track 3: 90 BPM (so the greedy sort keeps it last), one
Verse segment at 50 s. -/
def trackC3c : TrackAnalysis :=
  { Filepath := "t3", Duration := 200, BPM := 90, Key := "C Major",
    BeatTimes := [], Phrases := [],
    Segments := [{ Time := 50, Label := "Verse", Energy := 1/2, VocalEnergy := 0 }],
    Energy := [], Highlights := [] }

-- ======================================================================
-- src/backend/renderer.go:1602-1968 — RenderFinalMix single-loop model
-- ======================================================================

/-- The sequential apply step after the parallel normalization pre-pass
(renderer.go:1650-1659): on success (`some playEnd`, the silence-trimmed
effective duration) the play end is pulled down; on failure (`none`) the
track entry is left untouched and stays in the playlist.  (The temp-file path
rewrite is dropped from the model; file paths are opaque here.) -/
def applyNorm (t : TrackEntry) (res : Option ℚ) : TrackEntry :=
  match res with
  | none => t
  | some playEnd =>
    if t.PlayEnd ≤ 0 ∨ playEnd < t.PlayEnd then { t with PlayEnd := playEnd } else t

/-- Index-aligned application of the normalization results. -/
def applyNorms (playlist : List TrackEntry) (norms : List (Option ℚ)) : List TrackEntry :=
  (List.range playlist.length).map (fun i =>
    applyNorm (playlist.getD i
      { Filepath := "", Filename := "", Duration := 0, BPM := 0, LoudnessDB := 0,
        PlayStart := 0, PlayEnd := 0 }) (norms.getD i none))

/-- One sidecar record of the render loop: the offset recorded for the LRC
(renderer.go:1875-1879), the canvas float index the chunk was written at
(renderer.go:1882), the decoded chunk and the track name. -/
structure RenderEntry where
  OffsetMs : ℤ
  WriteIdx : ℤ
  Pcm : List ℚ
  Name : String
deriving DecidableEq, Repr

/-- The mutable state of the render loop (renderer.go:1667-1674). -/
structure RenderState where
  currentOffsetMs : ℤ
  prevActualChunkMs : ℤ
  trackStarts : List RenderEntry
  canvas : List ℚ
deriving DecidableEq, Repr

/-- Canvas growth (renderer.go:1883-1888): extend with zeros to the required
length. -/
def growCanvas (canvas : List ℚ) (requiredLen : ℕ) : List ℚ :=
  if canvas.length < requiredLen then
    canvas ++ List.replicate (requiredLen - canvas.length) 0
  else canvas

/-- Additive overlay (renderer.go:1889-1891). -/
def overlay (canvas : List ℚ) (offset : ℕ) (pcm : List ℚ) : List ℚ :=
  canvas.mapIdx (fun j v =>
    if offset ≤ j ∧ j < offset + pcm.length then v + pcm.getD (j - offset) 0 else v)

/-- One iteration of the main render loop (renderer.go:1742-1899) for track
`t`.  `prevTrack` is `none` for the first track; `outcome` is the decoded
f32 chunk (`none` models a failed FFmpeg extraction or PCM read, which Go
answers with `continue` — note the offset decrement of Step 2 has already
happened at that point and is retained). -/
def stepOffset (prevTrack : Option TrackEntry) (trans : TransitionSpec)
    (t : TrackEntry) (st : RenderState) : ℤ :=
  match prevTrack with
  | none => st.currentOffsetMs
  | some tp =>
    let se := clampPlayBounds t.PlayStart t.PlayEnd t.Duration
    let chunkTheorySec := se.2 - se.1
    let xfadeMs := clampXfade trans.Duration tp.BPM t.BPM st.prevActualChunkMs chunkTheorySec
    let o := st.currentOffsetMs - xfadeMs
    if o < 0 then 0 else o

/-- The remainder of the loop iteration given the overlay position. -/
def renderStep (prevTrack : Option TrackEntry) (trans : TransitionSpec)
    (t : TrackEntry) (outcome : Option (List ℚ)) (st : RenderState) : RenderState :=
  let offset1 := stepOffset prevTrack trans t st
  match outcome with
  | none => { st with currentOffsetMs := offset1 }
  | some pcm =>
    let pcmFloatCount := pcm.length
    let offsetSamples : ℤ := goInt ((offset1 : ℚ) / 1000 * 44100) * 2
    let requiredLen := (offsetSamples + pcmFloatCount).toNat
    let canvas2 := overlay (growCanvas st.canvas requiredLen) offsetSamples.toNat pcm
    let chunkMs : ℤ := ((pcmFloatCount : ℤ) * 1000).tdiv (44100 * 2)
    { currentOffsetMs := offset1 + chunkMs,
      prevActualChunkMs := chunkMs,
      trackStarts := st.trackStarts ++
        [{ OffsetMs := offset1, WriteIdx := offsetSamples, Pcm := pcm, Name := t.Filename }],
      canvas := canvas2 }

/-- The main render loop (renderer.go:1742-1899): strictly sequential; track
`i > 0` consumes `transitions[i-1]`. -/
def renderLoop :
    Option TrackEntry → List TrackEntry → List TransitionSpec →
    List (Option (List ℚ)) → RenderState → RenderState
  | _, [], _, _, st => st
  | prev, t :: ts, transL, outs, st =>
    let outcome := outs.headD none
    let trans := match prev with
      | none => { Ty := "", Name := "", Duration := 0, AOutTime := 0, BInTime := 0,
                  SpeedA := 0, SpeedB := 0 : TransitionSpec }
      | some _ => transL.headD
          { Ty := "", Name := "", Duration := 0, AOutTime := 0, BInTime := 0,
            SpeedA := 0, SpeedB := 0 }
    let transRest := match prev with
      | none => transL
      | some _ => transL.tail
    renderLoop (some t) ts transRest outs.tail (renderStep prev trans t outcome st)

/-- The sidecar records produced by a render run. -/
def renderEntries (playlist : List TrackEntry) (transitions : List TransitionSpec)
    (norms : List (Option ℚ)) (outs : List (Option (List ℚ))) : List RenderEntry :=
  (renderLoop none (applyNorms playlist norms) transitions outs
    { currentOffsetMs := 0, prevActualChunkMs := 0, trackStarts := [], canvas := [] }).trackStarts

/-- The two fatal error surfaces of `RenderFinalMix`. -/
inductive RenderErr where
  | tooFewTracks
  | encodeFailed
deriving DecidableEq, Repr

/-- The control-flow skeleton of `RenderFinalMix` (renderer.go:1602-1968):
the only track-count guard is `len(playlist) < 2` on the input
(renderer.go:1603); there is no check on the number of successfully rendered
tracks.  `encodeOk` oracles the final FFmpeg encode (renderer.go:1938-1944). -/
def RenderFinalMix (playlist : List TrackEntry) (transitions : List TransitionSpec)
    (norms : List (Option ℚ)) (outs : List (Option (List ℚ))) (encodeOk : Bool) :
    Except RenderErr (List RenderEntry) :=
  if playlist.length < 2 then Except.error RenderErr.tooFewTracks
  else if encodeOk then Except.ok (renderEntries playlist transitions norms outs)
  else Except.error RenderErr.encodeFailed

/-- The seconds value printed as `[MM:SS.ss]` for a sidecar offset
(renderer.go:1953-1958): `%05.2f` renders the seconds correctly rounded to
centiseconds (plus the minute part).  The model rounds half away from zero;
Go's correctly rounded decimal output of the binary double `ms/1000` agrees
except at exact half-centisecond ties whose double lies below the decimal
value — at the counterexample point ms = 25 the double of 0.025 lies above
1/40 and Go prints "00.03", as the model does. -/
def tsSec (ms : ℤ) : ℚ := (goRound ((ms : ℚ) / 10) : ℚ) / 100

/-- The canvas float index of the first non-silent sample of a rendered
chunk, as placed on the canvas. -/
def firstNonSilent (e : RenderEntry) : Option ℤ :=
  (e.Pcm.findIdx? (fun v => decide (v ≠ 0))).map (fun i => e.WriteIdx + (i : ℤ))

-- ======================================================================
-- C8 — failure semantics of RenderFinalMix
-- ======================================================================

/-- Track/outcome alignment of the render loop: track `i` is paired with the
`i`-th decode outcome (missing outcomes read as failures). -/
def pairUp : List TrackEntry → List (Option (List ℚ)) →
    List (TrackEntry × Option (List ℚ))
  | [], _ => []
  | t :: ts, outs => (t, outs.headD none) :: pairUp ts outs.tail

/-- Test track A for the renderer model. -/
def trackC1a : TrackEntry :=
  { Filepath := "a.mp3", Filename := "TrackA", Duration := 200, BPM := 120,
    LoudnessDB := -14, PlayStart := 0, PlayEnd := 200 }

/-- Test track B for the renderer model. -/
def trackC1b : TrackEntry :=
  { Filepath := "b.mp3", Filename := "TrackB", Duration := 200, BPM := 120,
    LoudnessDB := -14, PlayStart := 0, PlayEnd := 200 }

/-- Test transition for the renderer model (20 s requested crossfade). -/
def transC1 : TransitionSpec :=
  { Ty := "crossfade", Name := "x", Duration := 20, AOutTime := 150,
    BInTime := 30, SpeedA := 1, SpeedB := 1 }

instance : DecidableEq (Except RenderErr (List RenderEntry)) := fun x y =>
  match x, y with
  | .error a, .error b =>
    if h : a = b then .isTrue (by rw [h]) else .isFalse (by simp [h])
  | .ok a, .ok b =>
    if h : a = b then .isTrue (by rw [h]) else .isFalse (by simp [h])
  | .error _, .ok _ => .isFalse (by simp)
  | .ok _, .error _ => .isFalse (by simp)

-- ======================================================================
-- C1 — zero-drift timeline
-- ======================================================================

/-- Per-entry well-formedness of a sidecar record: the offset is non-negative
and the canvas write index is computed from that same offset. -/
def entryOk (e : RenderEntry) : Prop :=
  0 ≤ e.OffsetMs ∧ e.WriteIdx = goInt ((e.OffsetMs : ℚ) / 1000 * 44100) * 2

/-- Chunk for the C1 counterexample: 706 floats, an 8 ms chunk. -/
def pcmC1 : List ℚ := List.replicate 706 1

-- ======================================================================
-- src/backend/simulate_test.go:312-349 — estimateBeatTimes
-- ======================================================================

/-- Millisecond rounding of a beat time (simulate_test.go:340 and 344):
`math.Round(t*1000)/1000`. -/
def roundMs (t : ℚ) : ℚ := (goRound (t * 1000) : ℚ) / 1000

/-- The backward generation loop (simulate_test.go:339-341):
`for t := anchorTime; t >= 0; t -= beatPeriod`, fuel-bounded. -/
def backLoop : ℕ → ℚ → ℚ → List ℚ
  | 0, _, _ => []
  | f + 1, t, p => if 0 ≤ t then roundMs t :: backLoop f (t - p) p else []

/-- The forward generation loop (simulate_test.go:343-345):
`for t := anchorTime + beatPeriod; t < duration; t += beatPeriod`,
fuel-bounded. -/
def fwdLoop : ℕ → ℚ → ℚ → ℚ → List ℚ
  | 0, _, _, _ => []
  | f + 1, t, p, dur => if t < dur then roundMs t :: fwdLoop f (t + p) p dur else []

/-- The phase-anchor scan (simulate_test.go:326-333): index of the strongest
onset value among the first `searchFrames` frames (strict improvement,
initial best value 0). -/
def anchorScan (onset : List ℚ) (searchFrames : ℕ) : ℕ :=
  ((List.range searchFrames).foldl (fun (acc : ℕ × ℚ) i =>
    if acc.2 < onset.getD i 0 then (i, onset.getD i 0) else acc) (0, 0)).1

/-- `estimateBeatTimes` (simulate_test.go:312-349).  The two loop fuels are
`⌊anchor/period⌋ + 1` and `⌈(duration − anchor)/period⌉ + 1`, which are
exactly resp. at least the iteration counts of the Go loops (running out of
fuel at the final failing guard returns the same list). -/
def estimateBeatTimes (onset : List ℚ) (sr : ℕ) (duration bpm : ℚ) (hop : ℕ) :
    List ℚ :=
  let bpm1 := if bpm ≤ 0 then (120 : ℚ) else bpm
  let beatPeriod := 60 / bpm1
  let anchorTime :=
    if 0 < onset.length then
      let searchFrames := min (goInt (5 * (sr : ℚ) / (hop : ℚ))).toNat onset.length
      (anchorScan onset searchFrames : ℚ) * (hop : ℚ) / (sr : ℚ)
    else 0
  let back := backLoop (⌊anchorTime / beatPeriod⌋.toNat + 1) anchorTime beatPeriod
  let fwd := fwdLoop ((⌈(duration - anchorTime) / beatPeriod⌉).toNat + 1)
    (anchorTime + beatPeriod) beatPeriod duration
  sortFloat64s (back ++ fwd)

-- ======================================================================
-- Theorems
-- ======================================================================

-- ======================================================================
-- Fuel lemmas for the BPM normalization loops
-- ======================================================================

theorem divLoop_le (f : ℕ) (b : ℚ) (h : b ≤ 200 * 2 ^ f) : divLoop f b ≤ 200 := by
  induction f generalizing b with
  | zero => simpa [divLoop] using h
  | succ f ih =>
    rw [divLoop]
    split_ifs with h2
    · exact ih _ (by rw [pow_succ] at h; linarith)
    · linarith

theorem divLoop_pos (f : ℕ) (b : ℚ) (h : 0 < b) : 0 < divLoop f b := by
  induction f generalizing b with
  | zero => simpa [divLoop] using h
  | succ f ih =>
    rw [divLoop]
    split_ifs with h2
    · exact ih _ (by linarith)
    · exact h

theorem divLoop_cases (f : ℕ) (b : ℚ) : divLoop f b = b ∨ 100 < divLoop f b := by
  induction f generalizing b with
  | zero => exact Or.inl rfl
  | succ f ih =>
    rw [divLoop]
    split_ifs with h2
    · rcases ih (b / 2) with h | h
      · right; rw [h]; linarith
      · right; exact h
    · exact Or.inl rfl

theorem mulLoop_ge (f : ℕ) (b : ℚ) (h : 60 ≤ b * 2 ^ f) : 60 ≤ mulLoop f b := by
  induction f generalizing b with
  | zero => simpa [mulLoop] using h
  | succ f ih =>
    rw [mulLoop]
    split_ifs with h2
    · exact ih _ (by rw [pow_succ] at h; linarith)
    · linarith

theorem mulLoop_le (f : ℕ) (b : ℚ) (h : b ≤ 200) : mulLoop f b ≤ 200 := by
  induction f generalizing b with
  | zero => simpa [mulLoop] using h
  | succ f ih =>
    rw [mulLoop]
    split_ifs with h2
    · exact ih _ (by linarith)
    · exact h

theorem rat_le_num (b : ℚ) (h : 0 < b) : b ≤ (b.num : ℚ) := by
  conv_lhs => rw [← Rat.num_div_den b]
  apply div_le_self
  · exact_mod_cast (Rat.num_pos.mpr h).le
  · exact_mod_cast b.pos

theorem one_div_den_le (b : ℚ) (h : 0 < b) : 1 / (b.den : ℚ) ≤ b := by
  have hd : (0:ℚ) < (b.den : ℚ) := by exact_mod_cast b.pos
  have h0 : 0 < b.num := Rat.num_pos.mpr h
  have h1 : (1:ℚ) ≤ (b.num : ℚ) := by exact_mod_cast h0
  conv_rhs => rw [← Rat.num_div_den b]
  gcongr

theorem nat_le_two_pow_q (n : ℕ) : (n : ℚ) ≤ 2 ^ n := by
  have := Nat.lt_two_pow n
  exact_mod_cast this.le

/-- Core property of the embedded normalization: for every positive raw BPM the
fuels dominate the loop iteration counts and the result lies in [60, 200] and
is an integer multiple of 1/10. -/
theorem normalizeBPM_range (b : ℚ) (hb : 0 < b) :
    60 ≤ normalizeBPM b ∧ normalizeBPM b ≤ 200 ∧
      ∃ n : ℤ, normalizeBPM b = (n : ℚ) / 10 := by
  have hcpos : 0 < ⌈b / 200⌉ := Int.ceil_pos.mpr (by positivity)
  have hfuel1 : b ≤ 200 * 2 ^ ((⌈b / 200⌉).toNat + 1) := by
    have h1 : (b / 200 : ℚ) ≤ ((⌈b / 200⌉ : ℤ) : ℚ) := Int.le_ceil _
    have h2 : (((⌈b / 200⌉).toNat : ℕ) : ℚ) = ((⌈b / 200⌉ : ℤ) : ℚ) := by
      exact_mod_cast congrArg (fun z : ℤ => (z : ℚ)) (Int.toNat_of_nonneg hcpos.le)
    have h3 : (((⌈b / 200⌉).toNat + 1 : ℕ) : ℚ) ≤ 2 ^ ((⌈b / 200⌉).toNat + 1) :=
      nat_le_two_pow_q _
    have h4 : (((⌈b / 200⌉).toNat + 1 : ℕ) : ℚ) = (((⌈b / 200⌉).toNat : ℕ) : ℚ) + 1 := by
      push_cast
      ring
    linarith
  set b1 := divLoop ((⌈b / 200⌉).toNat + 1) b with hb1def
  have hb1le : b1 ≤ 200 := divLoop_le _ _ hfuel1
  have hb1pos : 0 < b1 := divLoop_pos _ _ hb
  have hfuel2 : 60 ≤ b1 * 2 ^ (b.den + 6) := by
    rcases divLoop_cases ((⌈b / 200⌉).toNat + 1) b with hcase | hcase
    · rw [← hb1def] at hcase
      rw [hcase]
      have hd : (b.den : ℚ) ≤ 2 ^ b.den := nat_le_two_pow_q _
      have hdpos : (0:ℚ) < (b.den : ℚ) := by exact_mod_cast b.pos
      have hge : 1 / (b.den : ℚ) ≤ b := one_div_den_le b hb
      have hpow : (2:ℚ) ^ (b.den + 6) = 2 ^ b.den * 64 := by rw [pow_add]; norm_num
      have h2d : (0:ℚ) < 2 ^ b.den := by positivity
      have key : (64 : ℚ) ≤ (1 / (b.den : ℚ)) * 2 ^ (b.den + 6) := by
        rw [hpow]
        rw [div_mul_eq_mul_div, one_mul, le_div_iff₀ hdpos]
        nlinarith
      have hmono : (1 / (b.den : ℚ)) * 2 ^ (b.den + 6) ≤ b * 2 ^ (b.den + 6) := by
        have : (0:ℚ) < 2 ^ (b.den + 6) := by positivity
        nlinarith
      linarith
    · rw [← hb1def] at hcase
      have h1 : (1:ℚ) ≤ 2 ^ (b.den + 6) := one_le_pow₀ (by norm_num)
      nlinarith
  set b2 := mulLoop (b.den + 6) b1 with hb2def
  have hb2ge : 60 ≤ b2 := mulLoop_ge _ _ hfuel2
  have hb2le : b2 ≤ 200 := mulLoop_le _ _ hb1le
  have hround0 : (0:ℚ) ≤ b2 * 10 := by linarith
  have hgr : goRound (b2 * 10) = ⌊b2 * 10 + 1/2⌋ := by simp [goRound, hround0]
  have hlo : (600 : ℤ) ≤ goRound (b2 * 10) := by
    rw [hgr]
    apply Int.le_floor.mpr
    push_cast
    linarith
  have hhi : goRound (b2 * 10) ≤ 2000 := by
    rw [hgr]
    have h1 : (⌊b2 * 10 + 1/2⌋ : ℚ) ≤ b2 * 10 + 1/2 := Int.floor_le _
    have h2 : (⌊b2 * 10 + 1/2⌋ : ℚ) < 2001 := by linarith
    have h3 : ⌊b2 * 10 + 1/2⌋ < 2001 := by exact_mod_cast h2
    omega
  have hval : normalizeBPM b = (goRound (b2 * 10) : ℚ) / 10 := by
    simp only [normalizeBPM, ← hb1def, ← hb2def]
  refine ⟨?_, ?_, ⟨goRound (b2 * 10), hval⟩⟩
  · rw [hval]
    have : (600 : ℚ) ≤ (goRound (b2 * 10) : ℚ) := by exact_mod_cast hlo
    linarith
  · rw [hval]
    have : ((goRound (b2 * 10)) : ℚ) ≤ 2000 := by exact_mod_cast hhi
    linarith

-- ======================================================================
-- C4 — play-bound clamping
-- ======================================================================

/-- C4 (counterexample): the claim "in all cases the post-clamp window
satisfies play_end − play_start ≥ 15 s" fails on a 5-second file:
`clampPlayBounds 0 0 5` returns the collapsed window (0, 5). -/
theorem C4_counterexample :
    clampPlayBounds 0 0 5 = (0, 5) ∧
      ¬ (15 ≤ (clampPlayBounds 0 0 5).2 - (clampPlayBounds 0 0 5).1) := by
  constructor
  · with_unfolding_all decide
  · with_unfolding_all decide

/-- C4 (amended): after play-bound clamping the window reaches 30 s whenever
`duration ≥ 30` (extending forward, or pinning the end to `duration` and
moving the start back); it reaches at least 15 s whenever `duration ≥ 15`;
shorter files may collapse to `(0, duration)`. -/
theorem C4_clamp_window (s e d : ℚ) :
    (15 ≤ d → 15 ≤ (clampPlayBounds s e d).2 - (clampPlayBounds s e d).1) ∧
    (30 ≤ d → 30 ≤ (clampPlayBounds s e d).2 - (clampPlayBounds s e d).1) := by
  constructor <;> intro hd <;> unfold clampPlayBounds goMax <;> dsimp only <;>
    split_ifs <;> dsimp only at * <;> linarith

/-- C4 witness: a 100-second file with empty bounds clamps to a ≥30 s window. -/
theorem C4_witness :
    15 ≤ (clampPlayBounds 0 0 100).2 - (clampPlayBounds 0 0 100).1 ∧
      30 ≤ (clampPlayBounds 0 0 100).2 - (clampPlayBounds 0 0 100).1 :=
  ⟨(C4_clamp_window 0 0 100).1 (by norm_num), (C4_clamp_window 0 0 100).2 (by norm_num)⟩

-- ======================================================================
-- C5 — BPM normalization
-- ======================================================================

set_option maxRecDepth 8000 in
/-- C5 (counterexample): a raw BPM of 200.1 does NOT normalize to 100.05; the
final rounding to one decimal place yields 100.1. -/
theorem C5_counterexample :
    normalizeBPM (2001/10) = 1001/10 ∧ normalizeBPM (2001/10) ≠ 10005/100 := by
  constructor <;> with_unfolding_all decide

set_option maxRecDepth 8000 in
/-- C5 (amended): BPM normalization maps every positive raw BPM into
[60, 200] by repeated ×2/÷2 and rounds to one decimal place; 59.9 normalizes
to 119.8 and 200.1 normalizes to 100.1 (not 100.05, which the 1-dp rounding
makes unattainable). -/
theorem C5_normalize_amended :
    (∀ b : ℚ, 0 < b →
      60 ≤ normalizeBPM b ∧ normalizeBPM b ≤ 200 ∧
        ∃ n : ℤ, normalizeBPM b = (n : ℚ) / 10) ∧
    normalizeBPM (599/10) = 1198/10 ∧ normalizeBPM (2001/10) = 1001/10 := by
  refine ⟨fun b hb => normalizeBPM_range b hb, ?_, ?_⟩ <;>
    with_unfolding_all decide

/-- C5 witness: the general part of the amended claim evaluated at b = 3. -/
theorem C5_witness : 60 ≤ normalizeBPM 3 ∧ normalizeBPM 3 ≤ 200 :=
  ⟨(C5_normalize_amended.1 3 (by norm_num)).1,
   (C5_normalize_amended.1 3 (by norm_num)).2.1⟩

-- ======================================================================
-- C6 — camelot distance
-- ======================================================================

theorem camelotMap_entries :
    ∀ e ∈ camelotMap, 1 ≤ e.2.1 ∧ e.2.1 ≤ 12 ∧ (e.2.2 = "A" ∨ e.2.2 = "B") := by
  decide

/-- C6: `camelot_distance` maps each key in the Camelot table to a position in
{1..12}×{A,B}; on two mapped keys it returns 0 for same-ring wheel distance
≤ 1, (d−1)·10 for same-ring distance d > 1, 10 for cross-ring distance 0, and
d·10 otherwise; on any unmapped key (in particular the analyzer's
"root Major/Minor" string form) it falls back to the semitone-circle distance
times 10. -/
theorem C6_camelot_distance :
    (∀ k c, camelotLookup k = some c →
      1 ≤ c.1 ∧ c.1 ≤ 12 ∧ (c.2 = "A" ∨ c.2 = "B")) ∧
    (∀ k1 k2 c1 c2, camelotLookup k1 = some c1 → camelotLookup k2 = some c2 →
      camelotDistance k1 k2 =
        (let d0 := c1.1 - c2.1
         let d1 := if d0 < 0 then -d0 else d0
         let d := if 6 < d1 then 12 - d1 else d1
         if c1.2 = c2.2 then
           if d ≤ 1 then 0 else (d - 1) * 10
         else
           if d = 0 then 10 else d * 10)) ∧
    (∀ k1 k2, camelotLookup k1 = none ∨ camelotLookup k2 = none →
      camelotDistance k1 k2 = keyDistance k1 k2 * 10) ∧
    (camelotLookup "C Major" = none ∧
      camelotDistance "C Major" "G Minor" = keyDistance "C Major" "G Minor" * 10 ∧
      keyDistance "C Major" "G Minor" = 5) := by
  refine ⟨?_, ?_, ?_, by decide, by decide, by decide⟩
  · intro k c hc
    obtain ⟨e, he, hec⟩ : ∃ e, camelotMap.find? (fun e => e.1 == k) = some e ∧ e.2 = c := by
      simpa [camelotLookup] using hc
    have hmem := List.mem_of_find?_eq_some he
    have := camelotMap_entries e hmem
    rw [hec] at this
    exact this
  · intro k1 k2 c1 c2 h1 h2
    simp only [camelotDistance, h1, h2]
  · intro k1 k2 h
    rcases h with h | h
    · simp only [camelotDistance, h]
    · simp only [camelotDistance, h]
      cases camelotLookup k1 <;> rfl

/-- C6 witness: the mapped-keys formula applied at C major / G major
(adjacent on the wheel, same ring: distance 0), and the fallback applied at
the analyzer string forms. -/
theorem C6_witness :
    camelotDistance "C" "G" = 0 ∧ camelotDistance "C Major" "G Minor" = 50 := by
  constructor
  · have h := C6_camelot_distance.2.1 "C" "G" (8, "B") (9, "B") (by decide) (by decide)
    rw [h]
    decide
  · have h := C6_camelot_distance.2.2.1 "C Major" "G Minor" (Or.inl (by decide))
    rw [h]
    decide

-- ======================================================================
-- C2 — crossfade budget
-- ======================================================================

/-- C2 (counterexample): the applied crossfade does not satisfy all four caps
simultaneously.  With a 15 s previous chunk and a 15 s current chunk the 40%
cap clamps the crossfade to 6000 ms, below the 8000 ms musical minimum; and
with a 0.5 s previous chunk the non-positive cap `prev − 1000` is skipped
(not floored to 0): the result is 200 ms, which exceeds `prev − 1000 = −500`. -/
theorem C2_counterexample :
    (clampXfade 16 120 120 15000 15 = 6000 ∧
      ¬ (8000 ≤ clampXfade 16 120 120 15000 15)) ∧
    (clampXfade 20 120 120 500 200 = 200 ∧
      ¬ (clampXfade 20 120 120 500 200 ≤ 500 - 1000) ∧
      clampXfade 20 120 120 500 200 ≠ 0) := by
  refine ⟨⟨?_, ?_⟩, ?_, ?_, ?_⟩ <;> with_unfolding_all decide

set_option maxHeartbeats 2000000 in
/-- C2 (amended): the applied crossfade is non-negative and satisfies every
cap that is strictly positive (`prev − 1000`, `current − 5000`, 40% of the
shorter chunk); non-positive caps are skipped rather than flooring the result
to 0; and the result either meets the musical minimum (2 bars at the average
BPM, floored at 8000 ms) or equals one of the caps that undercut it. -/
theorem C2_xfade_caps (tD bA bB : ℚ) (prevMs : ℤ) (cT : ℚ) :
    0 ≤ clampXfade tD bA bB prevMs cT ∧
    (0 < prevMs - 1000 → clampXfade tD bA bB prevMs cT ≤ prevMs - 1000) ∧
    (0 < goInt (cT * 1000) - 5000 →
      clampXfade tD bA bB prevMs cT ≤ goInt (cT * 1000) - 5000) ∧
    (0 < goInt (goMin (prevMs : ℚ) (cT * 1000) * (2/5)) →
      clampXfade tD bA bB prevMs cT ≤ goInt (goMin (prevMs : ℚ) (cT * 1000) * (2/5))) ∧
    ((if goRound (2 * (4 * 60 / (if (bA + bB) / 2 ≤ 0 then 120 else (bA + bB) / 2)) * 1000)
          < 8000 then (8000 : ℤ)
      else goRound (2 * (4 * 60 / (if (bA + bB) / 2 ≤ 0 then 120 else (bA + bB) / 2)) * 1000))
        ≤ clampXfade tD bA bB prevMs cT ∨
      clampXfade tD bA bB prevMs cT = prevMs - 1000 ∨
      clampXfade tD bA bB prevMs cT = goInt (cT * 1000) - 5000 ∨
      clampXfade tD bA bB prevMs cT = goInt (goMin (prevMs : ℚ) (cT * 1000) * (2/5))) := by
  unfold clampXfade
  dsimp only
  split_ifs <;> omega

/-- C2 witness: the amended bounds applied at the 15 s / 15 s instance, where
all three caps are positive. -/
theorem C2_witness :
    clampXfade 16 120 120 15000 15 ≤ 15000 - 1000 ∧
    clampXfade 16 120 120 15000 15 ≤ goInt ((15 : ℚ) * 1000) - 5000 ∧
    clampXfade 16 120 120 15000 15 ≤ goInt (goMin ((15000 : ℤ) : ℚ) ((15 : ℚ) * 1000) * (2/5)) := by
  obtain ⟨h0, h1, h2, h3, h4⟩ := C2_xfade_caps 16 120 120 15000 15
  exact ⟨h1 (by with_unfolding_all decide), h2 (by with_unfolding_all decide),
    h3 (by with_unfolding_all decide)⟩

-- ======================================================================
-- C9 — the vocal-energy filter is inert on analyzer output
-- ======================================================================

/-- C9: every segment produced by the analyzer's classifier carries
`vocal_energy = 0.5`; the `vocal_energy > 0.6` rejection in the planner's
pool formation therefore removes nothing: on any segment list whose vocal
energies are ≤ 0.6 — in particular on classifier output — the pool equals the
plain label filter. -/
theorem C9_vocal_filter_inert :
    (∀ phrases beatEnergy duration gridSize,
      ∀ s ∈ classifySegments phrases beatEnergy duration gridSize,
        s.VocalEnergy = 1/2) ∧
    (∀ segs labels, (∀ s ∈ segs, s.VocalEnergy ≤ 3/5) →
      pickSegmentPool segs labels = pickSegmentPoolFallback segs labels) ∧
    (∀ phrases beatEnergy duration gridSize labels,
      pickSegmentPool (classifySegments phrases beatEnergy duration gridSize) labels =
        pickSegmentPoolFallback (classifySegments phrases beatEnergy duration gridSize)
          labels) := by
  have hvocal : ∀ phrases beatEnergy duration gridSize,
      ∀ s ∈ classifySegments phrases beatEnergy duration gridSize,
        s.VocalEnergy = 1/2 := by
    intro phrases beatEnergy duration gridSize s hs
    rw [classifySegments] at hs
    split_ifs at hs
    · simp at hs
    · obtain ⟨i, _, rfl⟩ := List.mem_map.mp hs
      rfl
  have hpool : ∀ segs labels, (∀ s ∈ segs, s.VocalEnergy ≤ 3/5) →
      pickSegmentPool segs labels = pickSegmentPoolFallback segs labels := by
    intro segs labels h
    unfold pickSegmentPool pickSegmentPoolFallback
    apply List.filter_congr
    intro s hs
    have hv := h s hs
    have : ¬ (s.VocalEnergy > 3/5) := not_lt.mpr hv
    simp [this]
  refine ⟨hvocal, hpool, ?_⟩
  intro phrases beatEnergy duration gridSize labels
  apply hpool
  intro s hs
  rw [hvocal phrases beatEnergy duration gridSize s hs]
  norm_num

/-- C9 witness: the classifier output on a concrete one-phrase input has
vocal energy 0.5, and its pool equals the plain label filter. -/
theorem C9_witness :
    ((classifySegments [0] [1] 100 32).headD
        { Time := 0, Label := "", Energy := 0, VocalEnergy := 0 }).VocalEnergy = 1/2 ∧
    pickSegmentPool (classifySegments [0] [1] 100 32) ["Intro", "Verse"] =
      pickSegmentPoolFallback (classifySegments [0] [1] 100 32) ["Intro", "Verse"] := by
  constructor
  · apply C9_vocal_filter_inert.1 [0] [1] 100 32
    with_unfolding_all decide
  · exact C9_vocal_filter_inert.2.2 [0] [1] 100 32 ["Intro", "Verse"]

/-- C10: in `selectBest`, a candidate whose type maps to weight 0 (or is
absent from the map — a missing Go map key reads as 0) is scored with weight
1.0 rather than 0; hence a zero-weight type is not excluded and outranks a
candidate whose configured weight is 0.9, whether the zero is explicit or the
key is absent. -/
theorem C10_zero_weight_scores_one :
    (∀ typeW ty, lookupW typeW ty = 0 → selectWeight typeW ty = 1) ∧
    (selectBest [candA10, candB10] [("typeA", 0), ("typeB", 9/10)] 0 rng0).1 =
      some candA10 ∧
    (selectBest [candA10, candB10] [("typeB", 9/10)] 0 rng0).1 = some candA10 := by
  refine ⟨?_, ?_, ?_⟩
  · intro typeW ty h
    unfold selectWeight
    rw [h]
    rfl
  · with_unfolding_all decide
  · with_unfolding_all decide

/-- C10 witness: the effective-weight rule applied at an explicit zero
entry. -/
theorem C10_witness : selectWeight [("typeA", 0)] "typeA" = 1 :=
  C10_zero_weight_scores_one.1 [("typeA", 0)] "typeA" (by with_unfolding_all decide)

-- ======================================================================
-- C3 — chronology is only a soft penalty
-- ======================================================================

theorem scoreCands_sound (cands : List TransitionSpec) :
    ∀ (typeW : List (String × ℚ)) (minExit : ℚ) (r : Rng),
      (∀ i, 0 ≤ r.fs i ∧ r.fs i < 1) →
      ∀ p ∈ (scoreCands cands typeW minExit r).1,
        p.2 ∈ cands ∧
        selectWeight typeW p.2.Ty +
          (if p.2.AOutTime < minExit + 4 then (-500 : ℚ) else 0) ≤ p.1 ∧
        p.1 < selectWeight typeW p.2.Ty +
          (if p.2.AOutTime < minExit + 4 then (-500 : ℚ) else 0) + 1/100 := by
  induction cands with
  | nil =>
    intro typeW minExit r hr p hp
    rw [scoreCands] at hp
    simp at hp
  | cons c rest ih =>
    intro typeW minExit r hr p hp
    rw [scoreCands] at hp
    dsimp only at hp
    rcases List.mem_cons.mp hp with h | h
    · subst h
      dsimp only
      refine ⟨List.mem_cons_self c rest, ?_, ?_⟩
      · have := (hr r.fi).1
        unfold Rng.float
        dsimp only
        nlinarith
      · have := (hr r.fi).2
        unfold Rng.float
        dsimp only
        nlinarith
    · obtain ⟨hmem, hlo, hhi⟩ := ih typeW minExit (Rng.float r).2 hr p h
      exact ⟨List.mem_cons_of_mem c hmem, hlo, hhi⟩

theorem scoreCands_complete (cands : List TransitionSpec) :
    ∀ (typeW : List (String × ℚ)) (minExit : ℚ) (r : Rng),
      (∀ i, 0 ≤ r.fs i ∧ r.fs i < 1) →
      ∀ c ∈ cands, ∃ s, (s, c) ∈ (scoreCands cands typeW minExit r).1 ∧
        selectWeight typeW c.Ty +
          (if c.AOutTime < minExit + 4 then (-500 : ℚ) else 0) ≤ s := by
  induction cands with
  | nil =>
    intro typeW minExit r hr c hc
    simp at hc
  | cons c0 rest ih =>
    intro typeW minExit r hr c hc
    rw [scoreCands]
    dsimp only
    rcases List.mem_cons.mp hc with h | h
    · subst h
      refine ⟨_, List.mem_cons_self _ _, ?_⟩
      have := (hr r.fi).1
      unfold Rng.float
      dsimp only
      nlinarith
    · obtain ⟨s, hmem, hlo⟩ := ih typeW minExit (Rng.float r).2 hr c h
      exact ⟨s, List.mem_cons_of_mem _ hmem, hlo⟩

/-- C3 (amended): chronology is enforced only through the −500 score penalty
in `selectBest`.  Whenever at least one candidate of the pool satisfies
`a_out_time ≥ minExit + 4` and the effective type weights of the pool differ
by less than 499.99, the selected transition satisfies chronology; a pool in
which every candidate violates chronology still yields a selection, which
then violates the invariant (see the counterexample). -/
theorem C3_chronology_amended :
    ∀ (cands : List TransitionSpec) (typeW : List (String × ℚ)) (minExit : ℚ) (r : Rng),
      (∀ i, 0 ≤ r.fs i ∧ r.fs i < 1) →
      (∃ c ∈ cands, minExit + 4 ≤ c.AOutTime) →
      (∀ c1 ∈ cands, ∀ c2 ∈ cands,
        selectWeight typeW c1.Ty - selectWeight typeW c2.Ty < 49999/100) →
      ∀ b, (selectBest cands typeW minExit r).1 = some b →
        minExit + 4 ≤ b.AOutTime := by
  intro cands typeW minExit r hr hex hspread b hb
  cases cands with
  | nil =>
    rw [selectBest] at hb
    simp at hb
  | cons c0 rest =>
    rw [selectBest] at hb
    dsimp only at hb
    set scored := (scoreCands (c0 :: rest) typeW minExit r).1 with hscored
    have hscne : scored ≠ [] := by
      rw [hscored, scoreCands]
      simp
    set sortedL := List.insertionSort scoreGe scored with hsortedL
    have hperm : List.Perm sortedL scored := List.perm_insertionSort _ _
    have hsorted : List.Sorted scoreGe sortedL := List.sorted_insertionSort _ _
    have hsne : sortedL ≠ [] := by
      intro h
      apply hscne
      have hnil : List.Perm scored ([] : List (ℚ × TransitionSpec)) := h ▸ hperm.symm
      exact List.Perm.eq_nil hnil
    obtain ⟨h0, t0, hcons⟩ := List.exists_cons_of_ne_nil hsne
    have hb2 : b = h0.2 := by
      rw [hcons] at hb
      simpa using hb.symm
    have hmax : ∀ p ∈ scored, p.1 ≤ h0.1 := by
      intro p hp
      have hp2 : p ∈ sortedL := hperm.mem_iff.mpr hp
      rw [hcons] at hp2
      rcases List.mem_cons.mp hp2 with h | h
      · rw [h]
      · have hs2 := hsorted
        rw [hcons] at hs2
        exact (List.sorted_cons.mp hs2).1 p h
    have hh0mem : h0 ∈ scored := hperm.subset (hcons ▸ List.mem_cons_self h0 t0)
    obtain ⟨hh0c, hh0lo, hh0hi⟩ :=
      scoreCands_sound (c0 :: rest) typeW minExit r hr h0 hh0mem
    obtain ⟨cstar, hcs, hcomp⟩ := hex
    obtain ⟨sstar, hsmem, hslo⟩ :=
      scoreCands_complete (c0 :: rest) typeW minExit r hr cstar hcs
    have hsle := hmax _ hsmem
    by_contra hviol
    rw [hb2] at hviol
    have hpen : (if h0.2.AOutTime < minExit + 4 then (-500 : ℚ) else 0) = -500 :=
      if_pos (not_le.mp hviol)
    have hpen2 : (if cstar.AOutTime < minExit + 4 then (-500 : ℚ) else 0) = 0 :=
      if_neg (not_lt.mpr hcomp)
    rw [hpen] at hh0hi
    rw [hpen2] at hslo
    have hsp := hspread h0.2 hh0c cstar hcs
    simp only at hsle
    linarith

/-- C3 witness: the amended guarantee applied to a one-candidate pool whose
candidate satisfies chronology. -/
theorem C3_witness : (0 : ℚ) + 4 ≤ candA10.AOutTime := by
  apply C3_chronology_amended [candA10] [("typeA", 0)] 0 rng0
  · intro i
    refine ⟨le_refl 0, ?_⟩
    norm_num [rng0]
  · exact ⟨candA10, List.mem_singleton.mpr rfl, by norm_num [candA10]⟩
  · intro c1 h1 c2 h2
    rw [List.mem_singleton.mp h1, List.mem_singleton.mp h2]
    norm_num
  · with_unfolding_all decide

set_option maxRecDepth 16000 in
set_option maxHeartbeats 4000000 in
/-- C3 (counterexample): a complete `GenerateMixPlan` run (one scenario,
crossfade-only weights, the all-zeros random oracle) produces a plan whose
second selection has `a_out_time = 30`, strictly below
`selections[0].b_in_time + 4 = 154`: the −500 penalty cannot prevent the
violation because every candidate of the second pair violates chronology. -/
theorem C3_counterexample :
    (GenerateMixPlan [trackC3a, trackC3b, trackC3c] (some [("crossfade", 1/2)])
        (some [(8, 1)]) 1 rng0).Selections.length = 2 ∧
    ¬ ((((GenerateMixPlan [trackC3a, trackC3b, trackC3c] (some [("crossfade", 1/2)])
          (some [(8, 1)]) 1 rng0).Selections.getD 1
            { Ty := "", Name := "", Duration := 0, AOutTime := 0, BInTime := 0,
              SpeedA := 0, SpeedB := 0 }).AOutTime) ≥
      (((GenerateMixPlan [trackC3a, trackC3b, trackC3c] (some [("crossfade", 1/2)])
          (some [(8, 1)]) 1 rng0).Selections.getD 0
            { Ty := "", Name := "", Duration := 0, AOutTime := 0, BInTime := 0,
              SpeedA := 0, SpeedB := 0 }).BInTime) + 4) := by
  constructor
  · with_unfolding_all decide
  · with_unfolding_all decide

theorem renderLoop_names (tracks : List TrackEntry) :
    ∀ (prev : Option TrackEntry) (transL : List TransitionSpec)
      (outs : List (Option (List ℚ))) (st : RenderState),
      (renderLoop prev tracks transL outs st).trackStarts.map RenderEntry.Name =
        st.trackStarts.map RenderEntry.Name ++
          ((pairUp tracks outs).filter (fun p => p.2.isSome)).map
            (fun p => p.1.Filename) := by
  induction tracks with
  | nil =>
    intro prev transL outs st
    simp [renderLoop, pairUp]
  | cons t ts ih =>
    intro prev transL outs st
    rw [renderLoop.eq_def, pairUp.eq_def]
    dsimp only
    rw [ih]
    cases houtcome : outs.headD none with
    | none => simp [renderStep]
    | some pcm => simp [renderStep]

/-- C8 (counterexample): a 2-track render in which track A's chunk decode
fails and track B's normalization fails still returns success with a single
sidecar entry (track B, rendered from its un-normalized source): only one
track was successfully rendered, yet no insufficient-tracks error is raised,
and the failed track contributes neither an entry nor silence. -/
theorem C8_counterexample :
    RenderFinalMix [trackC1a, trackC1b] [transC1] [some 200, none]
        [none, some [1]] true =
      Except.ok [{ OffsetMs := 0, WriteIdx := 0, Pcm := [1], Name := "TrackB" }] := by
  with_unfolding_all decide

/-- C8 (amended): a failed per-track chunk decode or PCM read skips the track
— its sidecar entry is omitted and nothing is written to the canvas — while a
failed normalization alone keeps the track (rendered from the original file);
the insufficient-tracks error is raised exactly when the input playlist has
fewer than 2 tracks, regardless of how many tracks succeed; with at least 2
input tracks and a successful final encode the render returns the sidecar
entries of precisely the decode-successful tracks, in order. -/
theorem C8_failure_semantics_amended :
    (∀ pl trans norms outs encodeOk,
      RenderFinalMix pl trans norms outs encodeOk =
          Except.error RenderErr.tooFewTracks ↔ pl.length < 2) ∧
    (∀ pl trans norms outs, 2 ≤ pl.length →
      RenderFinalMix pl trans norms outs true =
        Except.ok (renderEntries pl trans norms outs)) ∧
    (∀ pl trans norms outs,
      (renderEntries pl trans norms outs).map RenderEntry.Name =
        ((pairUp (applyNorms pl norms) outs).filter (fun p => p.2.isSome)).map
          (fun p => p.1.Filename)) := by
  refine ⟨?_, ?_, ?_⟩
  · intro pl trans norms outs encodeOk
    unfold RenderFinalMix
    split_ifs with h1 h2 <;> simp_all
  · intro pl trans norms outs h
    unfold RenderFinalMix
    rw [if_neg (by omega), if_pos rfl]
  · intro pl trans norms outs
    unfold renderEntries
    rw [renderLoop_names]
    simp

/-- C8 witness: a fully successful 2-track render returns its entries. -/
theorem C8_witness :
    RenderFinalMix [trackC1a, trackC1b] [transC1] [some 200, some 200]
        [some [1], some [1]] true =
      Except.ok (renderEntries [trackC1a, trackC1b] [transC1] [some 200, some 200]
        [some [1], some [1]]) :=
  C8_failure_semantics_amended.2.1 [trackC1a, trackC1b] [transC1]
    [some 200, some 200] [some [1], some [1]] (by with_unfolding_all decide)

theorem stepOffset_nonneg (prev : Option TrackEntry) (trans : TransitionSpec)
    (t : TrackEntry) (st : RenderState) (h0 : 0 ≤ st.currentOffsetMs) :
    0 ≤ stepOffset prev trans t st := by
  cases prev with
  | none => exact h0
  | some tp =>
    dsimp only [stepOffset]
    split_ifs with h
    · exact le_refl 0
    · omega

theorem renderStep_ok (prev : Option TrackEntry) (trans : TransitionSpec)
    (t : TrackEntry) (outcome : Option (List ℚ)) (st : RenderState)
    (h0 : 0 ≤ st.currentOffsetMs) (hs : ∀ e ∈ st.trackStarts, entryOk e) :
    0 ≤ (renderStep prev trans t outcome st).currentOffsetMs ∧
      ∀ e ∈ (renderStep prev trans t outcome st).trackStarts, entryOk e := by
  have ho := stepOffset_nonneg prev trans t st h0
  cases outcome with
  | none =>
    constructor
    · simpa [renderStep] using ho
    · intro e he
      apply hs
      simpa [renderStep] using he
  | some pcm =>
    have hchunk : (0 : ℤ) ≤ ((pcm.length : ℤ) * 1000).tdiv (44100 * 2) :=
      Int.tdiv_nonneg (by positivity) (by norm_num)
    constructor
    · simp only [renderStep]
      exact add_nonneg ho hchunk
    · intro e he
      simp only [renderStep] at he
      rcases List.mem_append.mp he with h | h
      · exact hs e h
      · rw [List.mem_singleton] at h
        subst h
        exact ⟨ho, rfl⟩

theorem renderLoop_ok (tracks : List TrackEntry) :
    ∀ (prev : Option TrackEntry) (transL : List TransitionSpec)
      (outs : List (Option (List ℚ))) (st : RenderState),
      0 ≤ st.currentOffsetMs → (∀ e ∈ st.trackStarts, entryOk e) →
      0 ≤ (renderLoop prev tracks transL outs st).currentOffsetMs ∧
        ∀ e ∈ (renderLoop prev tracks transL outs st).trackStarts, entryOk e := by
  induction tracks with
  | nil =>
    intro prev transL outs st h0 hs
    exact ⟨h0, hs⟩
  | cons t ts ih =>
    intro prev transL outs st h0 hs
    rw [renderLoop.eq_def]
    dsimp only
    obtain ⟨h1, h2⟩ := renderStep_ok prev _ t (outs.headD none) st h0 hs
    exact ih _ _ _ _ h1 h2

theorem goInt_mul441 (ms : ℤ) (h : 0 ≤ ms) :
    goInt ((ms : ℚ) / 1000 * 44100) = ⌊(ms : ℚ) * 441 / 10⌋ := by
  have h1 : (0 : ℚ) ≤ (ms : ℚ) := by exact_mod_cast h
  have h2 : (0 : ℚ) ≤ (ms : ℚ) / 1000 * 44100 :=
    mul_nonneg (div_nonneg h1 (by norm_num)) (by norm_num)
  unfold goInt
  rw [if_pos h2]
  congr 1
  ring

theorem ts_bound (ms : ℤ) (h : 0 ≤ ms) :
    |tsSec ms - ((2 * ⌊(ms : ℚ) * 441 / 10⌋ : ℤ) : ℚ) / (2 * 44100)| ≤
      5/1000 + 1/44100 := by
  have h1 : (0 : ℚ) ≤ (ms : ℚ) / 10 := by positivity
  have hts : tsSec ms = ((⌊(ms : ℚ) / 10 + 1/2⌋ : ℤ) : ℚ) / 100 := by
    unfold tsSec goRound
    rw [if_pos h1]
  have hA1 : ((⌊(ms : ℚ) / 10 + 1/2⌋ : ℤ) : ℚ) ≤ (ms : ℚ) / 10 + 1/2 := Int.floor_le _
  have hA2 : (ms : ℚ) / 10 + 1/2 < ((⌊(ms : ℚ) / 10 + 1/2⌋ : ℤ) : ℚ) + 1 :=
    Int.lt_floor_add_one _
  have hB1 : ((⌊(ms : ℚ) * 441 / 10⌋ : ℤ) : ℚ) ≤ (ms : ℚ) * 441 / 10 := Int.floor_le _
  have hB2 : (ms : ℚ) * 441 / 10 < ((⌊(ms : ℚ) * 441 / 10⌋ : ℤ) : ℚ) + 1 :=
    Int.lt_floor_add_one _
  rw [hts, abs_le]
  constructor
  · push_cast
    linarith
  · push_cast
    linarith

/-- C1 (amended): in every render run, each sidecar record's canvas write
index is computed from the very `currentOffsetMs` recorded for the
`[MM:SS.ss]` line (the zero-drift mechanism), the first non-silent canvas
sample of a chunk whose first sample is non-silent sits exactly at that write
index, and the stated timestamp equals that index divided by the effective
stereo rate within 5 ms plus one output sample period (1/44100 s ≈ 0.023 ms
— the original ±5 ms is exceeded by up to one sample period at
half-centisecond offsets; see the counterexample). -/
theorem C1_timeline_amended :
    ∀ (playlist : List TrackEntry) (transitions : List TransitionSpec)
      (norms : List (Option ℚ)) (outs : List (Option (List ℚ))),
      ∀ e ∈ renderEntries playlist transitions norms outs,
        e.WriteIdx = 2 * ⌊(e.OffsetMs : ℚ) * 441 / 10⌋ ∧
        (e.Pcm.headD 0 ≠ 0 → firstNonSilent e = some e.WriteIdx) ∧
        |tsSec e.OffsetMs - (e.WriteIdx : ℚ) / (2 * 44100)| ≤ 5/1000 + 1/44100 := by
  intro playlist transitions norms outs e he
  have hok : entryOk e := by
    have h := renderLoop_ok (applyNorms playlist norms) none transitions outs
      { currentOffsetMs := 0, prevActualChunkMs := 0, trackStarts := [], canvas := [] }
      (le_refl 0) (by intro x hx; simp at hx)
    exact h.2 e he
  obtain ⟨hms, hw⟩ := hok
  have hw2 : e.WriteIdx = 2 * ⌊(e.OffsetMs : ℚ) * 441 / 10⌋ := by
    rw [hw, goInt_mul441 _ hms, mul_comm]
  refine ⟨hw2, ?_, ?_⟩
  · intro hhead
    unfold firstNonSilent
    cases hpcm : e.Pcm with
    | nil =>
      rw [hpcm] at hhead
      simp at hhead
    | cons a l =>
      rw [hpcm] at hhead
      simp only [List.headD_cons] at hhead
      rw [List.findIdx?_cons]
      simp [hhead]
  · rw [hw2]
    exact ts_bound e.OffsetMs hms

set_option maxRecDepth 20000 in
/-- C1 (counterexample): after an 8 ms first chunk, the second track lands at
offset 5 ms and canvas float index 440.  Its first non-silent sample sits at
index 440, i.e. at 220/44100 ≈ 4.989 ms, while the `[MM:SS.ss]` timestamp
renders as 00.01 (Go prints the double 0.005 as "00.01"); the difference is
221/44100 ≈ 5.011 ms > 5 ms, violating the stated ±5 ms. -/
theorem C1_counterexample :
    (renderEntries [trackC1a, trackC1b] [transC1] [some 200, some 200]
      [some pcmC1, some [1]]).length = 2 ∧
    ((renderEntries [trackC1a, trackC1b] [transC1] [some 200, some 200]
      [some pcmC1, some [1]]).getD 1
        { OffsetMs := 0, WriteIdx := 0, Pcm := [], Name := "" }).OffsetMs = 5 ∧
    ((renderEntries [trackC1a, trackC1b] [transC1] [some 200, some 200]
      [some pcmC1, some [1]]).getD 1
        { OffsetMs := 0, WriteIdx := 0, Pcm := [], Name := "" }).WriteIdx = 440 ∧
    firstNonSilent ((renderEntries [trackC1a, trackC1b] [transC1] [some 200, some 200]
      [some pcmC1, some [1]]).getD 1
        { OffsetMs := 0, WriteIdx := 0, Pcm := [], Name := "" }) = some 440 ∧
    ¬ (|tsSec 5 - (440 : ℚ) / (2 * 44100)| ≤ 5/1000) := by
  refine ⟨?_, ?_, ?_, ?_, ?_⟩ <;> with_unfolding_all decide

/-- C1 witness: the amended bound applied to the first entry of a concrete
2-track render. -/
theorem C1_witness :
    firstNonSilent ((renderEntries [trackC1a, trackC1b] [transC1] [some 200, some 200]
        [some [1], some [1]]).getD 0 { OffsetMs := 0, WriteIdx := 0, Pcm := [], Name := "" }) =
      some ((renderEntries [trackC1a, trackC1b] [transC1] [some 200, some 200]
        [some [1], some [1]]).getD 0
          { OffsetMs := 0, WriteIdx := 0, Pcm := [], Name := "" }).WriteIdx ∧
    |tsSec ((renderEntries [trackC1a, trackC1b] [transC1] [some 200, some 200]
        [some [1], some [1]]).getD 0
          { OffsetMs := 0, WriteIdx := 0, Pcm := [], Name := "" }).OffsetMs -
      (((renderEntries [trackC1a, trackC1b] [transC1] [some 200, some 200]
        [some [1], some [1]]).getD 0
          { OffsetMs := 0, WriteIdx := 0, Pcm := [], Name := "" }).WriteIdx : ℚ) /
        (2 * 44100)| ≤ 5/1000 + 1/44100 := by
  have h := C1_timeline_amended [trackC1a, trackC1b] [transC1] [some 200, some 200]
    [some [1], some [1]]
    ((renderEntries [trackC1a, trackC1b] [transC1] [some 200, some 200]
      [some [1], some [1]]).getD 0 { OffsetMs := 0, WriteIdx := 0, Pcm := [], Name := "" })
    (by with_unfolding_all decide)
  exact ⟨h.2.1 (by with_unfolding_all decide), h.2.2⟩

-- ======================================================================
-- C7 — beat grid monotonicity
-- ======================================================================

theorem roundMs_gap (x p : ℚ) (hx : 0 ≤ x) (hp : 1/1000 ≤ p) :
    roundMs x < roundMs (x + p) ∧ |roundMs (x + p) - roundMs x - p| ≤ 1/1000 := by
  have hxp : 0 ≤ x + p := by linarith
  have hA : goRound (x * 1000) = ⌊x * 1000 + 1/2⌋ := by
    unfold goRound
    rw [if_pos (by positivity)]
  have hB : goRound ((x + p) * 1000) = ⌊(x + p) * 1000 + 1/2⌋ := by
    unfold goRound
    rw [if_pos (by positivity)]
  have hA1 : ((⌊x * 1000 + 1/2⌋ : ℤ) : ℚ) ≤ x * 1000 + 1/2 := Int.floor_le _
  have hA2 : x * 1000 + 1/2 < ((⌊x * 1000 + 1/2⌋ : ℤ) : ℚ) + 1 := Int.lt_floor_add_one _
  have hB1 : ((⌊(x + p) * 1000 + 1/2⌋ : ℤ) : ℚ) ≤ (x + p) * 1000 + 1/2 := Int.floor_le _
  have hB2 : (x + p) * 1000 + 1/2 < ((⌊(x + p) * 1000 + 1/2⌋ : ℤ) : ℚ) + 1 :=
    Int.lt_floor_add_one _
  have hAB : ⌊x * 1000 + 1/2⌋ + 1 ≤ ⌊(x + p) * 1000 + 1/2⌋ := by
    apply Int.le_floor.mpr
    push_cast
    nlinarith
  have hABq : ((⌊x * 1000 + 1/2⌋ : ℤ) : ℚ) + 1 ≤ ((⌊(x + p) * 1000 + 1/2⌋ : ℤ) : ℚ) := by
    exact_mod_cast hAB
  unfold roundMs
  rw [hA, hB]
  constructor
  · rw [div_lt_div_iff₀ (by norm_num) (by norm_num)]
    nlinarith
  · rw [abs_le]
    constructor <;> nlinarith

/-- The head of the forward loop. -/
theorem fwdLoop_head (f : ℕ) (t p dur : ℚ) :
    (fwdLoop f t p dur).head? =
      if 0 < f ∧ t < dur then some (roundMs t) else none := by
  cases f with
  | zero => simp [fwdLoop]
  | succ f =>
    rw [fwdLoop]
    split_ifs with h1 h2 <;> simp_all

/-- The head of the backward loop. -/
theorem backLoop_head (f : ℕ) (t p : ℚ) :
    (backLoop f t p).head? =
      if 0 < f ∧ 0 ≤ t then some (roundMs t) else none := by
  cases f with
  | zero => simp [backLoop]
  | succ f =>
    rw [backLoop]
    split_ifs with h1 h2 <;> simp_all

theorem fwdLoop_chain (p dur : ℚ) (hp : 1/1000 ≤ p) (f : ℕ) :
    ∀ t, 0 ≤ t →
      List.Chain' (fun x y => x < y ∧ |y - x - p| ≤ 1/1000) (fwdLoop f t p dur) := by
  induction f with
  | zero =>
    intro t ht
    simp [fwdLoop]
  | succ f ih =>
    intro t ht
    rw [fwdLoop]
    split_ifs with h
    · rw [List.chain'_cons']
      refine ⟨?_, ih (t + p) (by linarith)⟩
      intro y hy
      rw [fwdLoop_head] at hy
      split_ifs at hy with h2
      · obtain ⟨hg1, hg2⟩ := roundMs_gap t p ht hp
        simp only [Option.mem_def, Option.some.injEq] at hy
        rw [← hy]
        exact ⟨hg1, hg2⟩
      · simp at hy
    · exact List.chain'_nil

theorem backLoop_chain (p : ℚ) (hp : 1/1000 ≤ p) (f : ℕ) :
    ∀ t, List.Chain' (fun x y => y < x ∧ |x - y - p| ≤ 1/1000) (backLoop f t p) := by
  induction f with
  | zero =>
    intro t
    simp [backLoop]
  | succ f ih =>
    intro t
    rw [backLoop]
    split_ifs with h
    · rw [List.chain'_cons']
      refine ⟨?_, ih (t - p)⟩
      intro y hy
      rw [backLoop_head] at hy
      split_ifs at hy with h2
      · obtain ⟨hg1, hg2⟩ := roundMs_gap (t - p) p h2.2 hp
        rw [sub_add_cancel] at hg1 hg2
        simp only [Option.mem_def, Option.some.injEq] at hy
        rw [← hy]
        exact ⟨hg1, hg2⟩
      · simp at hy
    · exact List.chain'_nil

/-- The combined, already-sorted grid: reversed backward part followed by the
forward part. -/
theorem beats_chain (a p dur : ℚ) (ha : 0 ≤ a) (hp : 1/1000 ≤ p) (fb ff : ℕ)
    (hfb : 0 < fb) :
    List.Chain' (fun x y => x < y ∧ |y - x - p| ≤ 1/1000)
      ((backLoop fb a p).reverse ++ fwdLoop ff (a + p) p dur) := by
  rw [List.chain'_append]
  refine ⟨?_, fwdLoop_chain p dur hp ff (a + p) (by linarith), ?_⟩
  · rw [List.chain'_reverse]
    exact backLoop_chain p hp fb a
  · intro x hx y hy
    rw [List.getLast?_reverse, backLoop_head] at hx
    rw [if_pos ⟨hfb, ha⟩] at hx
    simp only [Option.mem_def, Option.some.injEq] at hx
    rw [fwdLoop_head] at hy
    split_ifs at hy with h2
    · simp only [Option.mem_def, Option.some.injEq] at hy
      obtain ⟨hg1, hg2⟩ := roundMs_gap a p ha hp
      rw [← hx, ← hy]
      exact ⟨hg1, hg2⟩
    · simp at hy

/-- Sorting the generated beats is the identity on the already-ordered
reversed-backward ++ forward arrangement. -/
theorem sort_beats_eq (a p dur : ℚ) (ha : 0 ≤ a) (hp : 1/1000 ≤ p) (fb ff : ℕ)
    (hfb : 0 < fb) :
    sortFloat64s (backLoop fb a p ++ fwdLoop ff (a + p) p dur) =
      (backLoop fb a p).reverse ++ fwdLoop ff (a + p) p dur := by
  apply List.eq_of_perm_of_sorted
    (r := fun x y : ℚ => x ≤ y)
  · exact (List.perm_insertionSort _ _).trans
      (List.Perm.append_right _ (List.reverse_perm _).symm)
  · exact List.sorted_insertionSort _ _
  · have hchain := beats_chain a p dur ha hp fb ff hfb
    have hlt : List.Chain' (fun x y : ℚ => x < y)
        ((backLoop fb a p).reverse ++ fwdLoop ff (a + p) p dur) :=
      hchain.imp (fun a b hab => hab.1)
    have hpair : List.Pairwise (fun x y : ℚ => x < y)
        ((backLoop fb a p).reverse ++ fwdLoop ff (a + p) p dur) :=
      List.chain'_iff_pairwise.mp hlt
    exact hpair.imp le_of_lt

/-- C7: for every analyzer-range BPM (0 < bpm ≤ 200), the beat grid produced
by `estimateBeatTimes` — generated backward and forward from the strongest
early-onset phase anchor and rounded to milliseconds — is strictly increasing
with consecutive differences within ±1 ms of `60/bpm`. -/
theorem C7_beat_grid (onset : List ℚ) (sr : ℕ) (duration bpm : ℚ) (hop : ℕ)
    (h1 : 0 < bpm) (h2 : bpm ≤ 200) :
    List.Chain' (fun x y => x < y ∧ |y - x - 60 / bpm| ≤ 1/1000)
      (estimateBeatTimes onset sr duration bpm hop) := by
  have hbpm1 : (if bpm ≤ 0 then (120 : ℚ) else bpm) = bpm := if_neg (not_le.mpr h1)
  have hp : 1/1000 ≤ 60 / bpm := by
    have h3 : 60 / 200 ≤ 60 / bpm := by
      apply div_le_div_of_nonneg_left (by norm_num) h1 h2
    linarith
  have ha : (0 : ℚ) ≤
      (if 0 < onset.length then
        (anchorScan onset (min (goInt (5 * (sr : ℚ) / (hop : ℚ))).toNat onset.length) : ℚ)
          * (hop : ℚ) / (sr : ℚ)
      else 0) := by
    split_ifs
    · positivity
    · exact le_refl 0
  unfold estimateBeatTimes
  rw [hbpm1]
  exact sort_beats_eq _ _ duration ha hp _ _ (Nat.succ_pos _) ▸
    beats_chain _ _ duration ha hp _ _ (Nat.succ_pos _)

/-- C7 witness: the grid of a 2-second, 120 BPM track with a single onset
frame, and the theorem's guarantee applied to it. -/
theorem C7_witness :
    estimateBeatTimes [1] 22050 2 120 512 = [0, 1/2, 1, 3/2] ∧
    List.Chain' (fun x y => x < y ∧ |y - x - 60 / 120| ≤ 1/1000)
      (estimateBeatTimes [1] 22050 2 120 512) := by
  constructor
  · with_unfolding_all decide
  · exact C7_beat_grid [1] 22050 2 120 512 (by norm_num) (by norm_num)

end DJBot

